import Mathlib

/-!
Verification of the traffic-store core of `android_proxy_mcp`.

The development shallowly embeds `core/sqlite_store.py` (class
`SQLiteTrafficStore`), `core/models.py` (`TrafficRecord`),
`utils/mime_types.py` (`infer_resource_type`) and the read-path tools of
`tools/traffic_tools.py`.

Modelling conventions, fixed once here:

* SQLite `REAL` values (timestamps, durations) are modelled as `Int`: the
  program only copies and compares them, never does arithmetic on them, so
  any linearly ordered carrier is faithful.
* Byte strings (`BLOB` columns, Python `bytes`) are `List Nat`.
* The rows of the `traffic` table are kept as a Lean list in rowid order;
  `INSERT OR REPLACE` deletes the conflicting row and appends the fresh one
  at the end, which is exactly SQLite's behaviour (the replacement obtains a
  new, maximal rowid).
* Python string operations (`lower`, `strip`, `isdigit`) and the SQLite
  collation functions (`LOWER`, `LIKE`) are modelled for ASCII text, which
  is also the range on which the two agree; SQLite's `LIKE` and `LOWER` are
  ASCII-only case folders by definition.
* The `json` library is modelled at its contract boundary: a serialized
  header/timing column (`JsonCol`) is either SQL `NULL`, the dump of a flat
  object (for which `json.loads (json.dumps m) = m`), or some other text on
  which `json.loads` raises.  A Python-level exception is modelled as
  `Option.none` in the result of the operation that would raise.
-/

/-! ## ASCII character and string helpers -/

/-- ASCII lower-casing of one character, as performed by SQLite's `LOWER()`
and `LIKE` (which fold only `A`-`Z`). -/
def asciiLowerChar (c : Char) : Char :=
  if 'A' ≤ c ∧ c ≤ 'Z' then Char.ofNat (c.toNat + 32) else c

/-- ASCII lower-casing of a character list. -/
def asciiLowerL (s : List Char) : List Char :=
  s.map asciiLowerChar

/-- ASCII lower-casing of a string (model of Python `str.lower` on ASCII
text and of SQLite `LOWER()`). -/
def asciiLower (s : String) : String :=
  ⟨asciiLowerL s.data⟩

/-- Whitespace characters stripped by Python `str.strip()`. -/
def isPyWs (c : Char) : Bool :=
  c = ' ' ∨ c = '\t' ∨ c = '\n' ∨ c = '\x0d' ∨ c = '\x0b' ∨ c = '\x0c'

/-- Model of Python `str.strip()` on a character list. -/
def pyStripL (s : List Char) : List Char :=
  (s.dropWhile isPyWs).reverse.dropWhile isPyWs |>.reverse

/-- ASCII decimal digit test (Python `str.isdigit` restricted to ASCII). -/
def isAsciiDigit (c : Char) : Bool :=
  '0' ≤ c ∧ c ≤ '9'

/-- Numeric value of an ASCII digit character. -/
def digitVal (c : Char) : Nat :=
  c.toNat - 48

/-- Value of a nonempty ASCII digit list read most-significant first. -/
def digitsVal (cs : List Char) : Nat :=
  cs.foldl (fun a c => 10 * a + digitVal c) 0

/-! ## SQLite `LIKE` -/

/-- Model of SQLite's `LIKE` pattern matcher on character lists: `%` matches
any (possibly empty) sequence, `_` matches exactly one character, and all
other pattern characters match ASCII-case-insensitively (SQLite's default
`LIKE` is case-insensitive for the ASCII range). -/
def likeMatch (p : List Char) : List Char → Bool :=
  match p with
  | [] => fun s => s.isEmpty
  | p1 :: ps =>
    if p1 = '%' then fun s => s.tails.any (likeMatch ps)
    else if p1 = '_' then fun s =>
      match s with
      | [] => false
      | _ :: s2 => likeMatch ps s2
    else fun s =>
      match s with
      | [] => false
      | c :: s2 => (asciiLowerChar p1 == asciiLowerChar c) && likeMatch ps s2

/-- SQL expression `value LIKE pattern`. -/
def sqlLike (value pattern : String) : Bool :=
  likeMatch pattern.data value.data

/-! ## Case-insensitive substring search (Python `str.find` / `in`) -/

/-- Whether `p` is an initial segment of `s`, comparing characters with
`==`. -/
def leadEq : List Char → List Char → Bool
  | [], _ => true
  | _ :: _, [] => false
  | a :: ps, b :: ss => (a == b) && leadEq ps ss

/-- First index at which `needle` occurs in `hay`, if any (model of the
nonnegative outcomes of Python `str.find`). -/
def findSub (hay needle : List Char) : Option Nat :=
  match hay with
  | [] => if leadEq needle [] then some 0 else none
  | _ :: rest =>
    if leadEq needle hay then some 0
    else (findSub rest needle).map (· + 1)

/-- Model of Python `content.lower().find(keyword.lower())`: the first
ASCII-case-insensitive occurrence of `keyword` in `content`, or `-1`. -/
def ciFind (content keyword : List Char) : Int :=
  match findSub (asciiLowerL content) (asciiLowerL keyword) with
  | some i => (i : Int)
  | none => -1

/-! ## Python `int()` on strings -/

/-- Digits-with-underscores body of a Python integer literal string: digits
with single underscores allowed only between two digits. -/
def pyIntBody : List Char → Bool
  | [] => false
  | [c] => isAsciiDigit c
  | c :: '_' :: rest => isAsciiDigit c && pyIntBody rest
  | c :: rest => isAsciiDigit c && pyIntBody rest

/-- Numeric value of a digits-with-underscores body. -/
def pyIntBodyVal (cs : List Char) : Nat :=
  digitsVal (cs.filter isAsciiDigit)

/-- Model of Python `int(s)` on ASCII text: surrounding whitespace is
stripped, then an optional single sign precedes a nonempty digit group
(underscore separators allowed between digits); anything else raises
`ValueError`, modelled as `none`. -/
def pyInt (cs : List Char) : Option Int :=
  match pyStripL cs with
  | '+' :: rest => if pyIntBody rest then some (pyIntBodyVal rest : Int) else none
  | '-' :: rest => if pyIntBody rest then some (-(pyIntBodyVal rest : Int)) else none
  | rest => if pyIntBody rest then some (pyIntBodyVal rest : Int) else none

/-! ## Status-filter condition (`SQLiteTrafficStore._build_status_condition`) -/

/-- SQL condition produced by `_build_status_condition`: either
`status = ?` or `status BETWEEN ? AND ?`. -/
inductive StatusCond where
  | eq (n : Int)
  | between (lo hi : Int)
deriving DecidableEq, Repr

/-- Split a character list on a separator character (model of Python
`str.split(sep)` for a single-character separator). -/
def splitOnChar (sep : Char) : List Char → List (List Char)
  | [] => [[]]
  | c :: rest =>
    let r := splitOnChar sep rest
    if c = sep then [] :: r
    else
      match r with
      | [] => [[c]]
      | g :: gs => (c :: g) :: gs

/-- Model of `SQLiteTrafficStore._build_status_condition`: strips and
lower-cases the pattern, then recognizes an all-digits exact form, a
`lo-hi` range form, and a `Nxx` class form; every other input yields no
condition. -/
def buildStatusCondition (pattern : String) : Option StatusCond :=
  let p := asciiLowerL (pyStripL pattern.data)
  if p ≠ [] ∧ p.all isAsciiDigit then
    some (StatusCond.eq (digitsVal p : Int))
  else if p.contains '-' then
    match splitOnChar '-' p with
    | [a, b] =>
      match pyInt a, pyInt b with
      | some lo, some hi => some (StatusCond.between lo hi)
      | _, _ => none
    | _ => none
  else
    match p with
    | [c, 'x', 'x'] =>
      match pyInt [c] with
      | some d => some (StatusCond.between (d * 100) (d * 100 + 99))
      | none => none
    | _ => none

/-- Whether an integer satisfies a status condition. -/
def StatusCond.holds (sc : StatusCond) (status : Int) : Bool :=
  match sc with
  | .eq n => status == n
  | .between lo hi => lo ≤ status ∧ status ≤ hi

/-! ## Bytes and text decoding -/

/-- Byte strings (Python `bytes`, SQLite `BLOB`). -/
abbrev Bytes := List Nat

/-- Whether a byte is a UTF-8 continuation byte (`10xxxxxx`). -/
def isCont (b : Nat) : Bool :=
  0x80 ≤ b ∧ b ≤ 0xBF

/-- Strict UTF-8 decoder (model of Python `bytes.decode("utf-8")`):
rejects truncated sequences, overlong encodings, surrogates, and values
above `0x10FFFF`. -/
def utf8Decode : Bytes → Option (List Char)
  | [] => some []
  | b :: rest =>
    if b < 0x80 then
      (utf8Decode rest).map (Char.ofNat b :: ·)
    else if 0xC2 ≤ b ∧ b ≤ 0xDF then
      match rest with
      | b2 :: r2 =>
        if isCont b2 then
          (utf8Decode r2).map (Char.ofNat ((b - 0xC0) * 0x40 + (b2 - 0x80)) :: ·)
        else none
      | _ => none
    else if 0xE0 ≤ b ∧ b ≤ 0xEF then
      match rest with
      | b2 :: b3 :: r2 =>
        if isCont b2 ∧ isCont b3 then
          let v := (b - 0xE0) * 0x1000 + (b2 - 0x80) * 0x40 + (b3 - 0x80)
          if 0x800 ≤ v ∧ ¬ (0xD800 ≤ v ∧ v ≤ 0xDFFF) then
            (utf8Decode r2).map (Char.ofNat v :: ·)
          else none
        else none
      | _ => none
    else if 0xF0 ≤ b ∧ b ≤ 0xF4 then
      match rest with
      | b2 :: b3 :: b4 :: r2 =>
        if isCont b2 ∧ isCont b3 ∧ isCont b4 then
          let v := (b - 0xF0) * 0x40000 + (b2 - 0x80) * 0x1000 +
            (b3 - 0x80) * 0x40 + (b4 - 0x80)
          if 0x10000 ≤ v ∧ v ≤ 0x10FFFF then
            (utf8Decode r2).map (Char.ofNat v :: ·)
          else none
        else none
      | _ => none
    else none

/-- Latin-1 decoding: every byte maps to the character of the same code
point (model of Python `bytes.decode("latin-1")`, which never fails). -/
def latin1Decode (b : Bytes) : List Char :=
  b.map Char.ofNat

/-- Body-to-text conversion used by `read_body`: UTF-8, falling back to
Latin-1 when UTF-8 decoding fails. -/
def pyDecodeBody (b : Bytes) : List Char :=
  (utf8Decode b).getD (latin1Decode b)

/-- Model of SQLite `CAST(blob AS TEXT)` as observed through the Python
driver: the bytes read as UTF-8 text.  For non-UTF-8 bytes the engine's
behaviour is representation-dependent; the model falls back to Latin-1,
which no claim exercises. -/
def castBlobText (b : Bytes) : List Char :=
  pyDecodeBody b

/-! ## The `json` library boundary -/

/-- A serialized JSON column (`request_headers`, `response_headers`,
`timing`): SQL `NULL`, the `json.dumps` image of a flat object, or other
text, on which `json.loads` raises.  The `bad` constructor carries the raw
column text. -/
inductive JsonCol (α : Type) where
  | null : JsonCol α
  | obj (entries : List (String × α)) : JsonCol α
  | bad (text : String) : JsonCol α
deriving DecidableEq, Repr

/-- Model of `json.loads(row[col] or "{}")` in `_row_to_record`: a `NULL`
column and the empty string are both replaced by `"{}"` before parsing, so
they decode to the empty mapping; the dump of an object parses back to that
object (the `json` round-trip contract); any other unparsable text raises,
modelled as `none`. -/
def jsonColLoad {α : Type} : JsonCol α → Option (List (String × α))
  | .null => some []
  | .obj m => some m
  | .bad t => if t = "" then some [] else none

/-- Escaping of one character in the model's `json.dumps` text (quote and
backslash; Python additionally `\u`-escapes control and non-ASCII
characters, a representation detail no claim observes). -/
def jsonEscChar (c : Char) : List Char :=
  if c = '"' ∨ c = '\\' then ['\\', c] else [c]

/-- Model of the `json.dumps` text of one string, quotes included. -/
def jsonDumpStr (s : String) : List Char :=
  '"' :: s.data.flatMap jsonEscChar ++ ['"']

/-- Model of the `json.dumps` text of a flat string-to-string object, used
only as the text that SQL `LIKE` sees when searching a headers column. -/
def jsonDumpObj (m : List (String × String)) : String :=
  let items := m.map fun kv => jsonDumpStr kv.1 ++ (": ").data ++ jsonDumpStr kv.2
  ⟨'{' :: (items.intersperse (", ".data)).flatten ++ ['}']⟩

/-- Column text of a headers column as seen by SQL (`NULL` gives SQL
`NULL`). -/
def JsonCol.text : JsonCol String → Option String
  | .null => none
  | .obj m => some (jsonDumpObj m)
  | .bad t => some t

/-! ## Data model (`core/models.py` and the `traffic` table) -/

/-- Model of `TrafficRecord` (`core/models.py`).  Header and timing
mappings are association lists standing for Python dicts; `REAL` fields are
carried as `Int` (see the file header). -/
structure TrafficRecord where
  id : String
  timestamp : Int
  method : String
  url : String
  domain : String
  status : Int
  resource_type : String
  size : Int
  time_ms : Int
  request_headers : List (String × String) := []
  request_body : Option Bytes := none
  request_body_size : Int := 0
  response_headers : List (String × String) := []
  response_body : Option Bytes := none
  timing : List (String × Int) := []
  error : Option String := none
deriving DecidableEq, Repr

/-- Model of one row of the `traffic` table.  The three JSON columns keep
the serialized form (`JsonCol`); body columns are nullable blobs; the
unread `created_at` column is omitted. -/
structure TrafficRow where
  id : String
  timestamp : Int
  method : String
  url : String
  domain : String
  status : Int
  resource_type : String
  size : Int
  time_ms : Int
  request_headers : JsonCol String
  request_body : Option Bytes
  request_body_size : Option Int
  response_headers : JsonCol String
  response_body : Option Bytes
  timing : JsonCol Int
  error : Option String
deriving DecidableEq, Repr

/-- Row written by `SQLiteTrafficStore.add`: every field of the record,
with the mappings serialized through `json.dumps`. -/
def recordToRow (r : TrafficRecord) : TrafficRow where
  id := r.id
  timestamp := r.timestamp
  method := r.method
  url := r.url
  domain := r.domain
  status := r.status
  resource_type := r.resource_type
  size := r.size
  time_ms := r.time_ms
  request_headers := JsonCol.obj r.request_headers
  request_body := r.request_body
  request_body_size := some r.request_body_size
  response_headers := JsonCol.obj r.response_headers
  response_body := r.response_body
  timing := JsonCol.obj r.timing
  error := r.error

/-- Model of `SQLiteTrafficStore._row_to_record`.  The three JSON columns
go through `json.loads(text or "{}")`, which raises on malformed non-empty
text (`none` result); `request_body_size` goes through `or 0`, which maps
`NULL` to `0` and keeps every stored integer (`v or 0 = v` for ints). -/
def rowToRecord (row : TrafficRow) : Option TrafficRecord := do
  let rh ← jsonColLoad row.request_headers
  let rsh ← jsonColLoad row.response_headers
  let tm ← jsonColLoad row.timing
  pure
    { id := row.id
      timestamp := row.timestamp
      method := row.method
      url := row.url
      domain := row.domain
      status := row.status
      resource_type := row.resource_type
      size := row.size
      time_ms := row.time_ms
      request_headers := rh
      request_body := row.request_body
      request_body_size := row.request_body_size.getD 0
      response_headers := rsh
      response_body := row.response_body
      timing := tm
      error := row.error }

/-! ## The store and its write path -/

/-- Model of `SQLiteTrafficStore`: the capacity bound and the rows of the
`traffic` table in rowid order. -/
structure SQLiteTrafficStore where
  max_size : Nat
  rows : List TrafficRow
deriving DecidableEq, Repr

/-- Ascending-timestamp comparison used by `ORDER BY timestamp ASC`. -/
def tsLe (a b : TrafficRow) : Prop :=
  a.timestamp ≤ b.timestamp

instance : DecidableRel tsLe := fun a b => inferInstanceAs (Decidable (a.timestamp ≤ b.timestamp))

instance : IsTotal TrafficRow tsLe := ⟨fun a b => Int.le_total a.timestamp b.timestamp⟩

instance : IsTrans TrafficRow tsLe := ⟨fun _ _ _ h1 h2 => le_trans h1 h2⟩

/-- Descending-timestamp comparison used by `ORDER BY timestamp DESC`. -/
def tsGe (a b : TrafficRow) : Prop :=
  b.timestamp ≤ a.timestamp

instance : DecidableRel tsGe := fun a b => inferInstanceAs (Decidable (b.timestamp ≤ a.timestamp))

instance : IsTotal TrafficRow tsGe := ⟨fun a b => Int.le_total b.timestamp a.timestamp⟩

instance : IsTrans TrafficRow tsGe := ⟨fun _ _ _ h1 h2 => le_trans h2 h1⟩

/-- Rows sorted oldest-first, as scanned by the cleanup subquery
`SELECT id FROM traffic ORDER BY timestamp ASC` (ties in an engine-chosen
stable order). -/
def sortAsc (rows : List TrafficRow) : List TrafficRow :=
  rows.insertionSort tsLe

/-- Rows sorted newest-first, as produced by `ORDER BY timestamp DESC`. -/
def sortDesc (rows : List TrafficRow) : List TrafficRow :=
  rows.insertionSort tsGe

/-- Model of `SQLiteTrafficStore._cleanup`: when the row count exceeds
`max_size`, the ids of the `count - max_size` oldest rows are collected and
every row carrying one of those ids is deleted. -/
def cleanup (maxSize : Nat) (rows : List TrafficRow) : List TrafficRow :=
  if maxSize < rows.length then
    let victims := ((sortAsc rows).take (rows.length - maxSize)).map (·.id)
    rows.filter fun r => ¬ victims.contains r.id
  else rows

/-- Model of `SQLiteTrafficStore.add`: `INSERT OR REPLACE` (delete the row
with the conflicting primary key, append the fresh row) followed by
`_cleanup`. -/
def SQLiteTrafficStore.add (s : SQLiteTrafficStore) (r : TrafficRecord) : SQLiteTrafficStore :=
  { s with rows := cleanup s.max_size ((s.rows.filter fun row => row.id ≠ r.id) ++ [recordToRow r]) }

/-- Model of `SQLiteTrafficStore.clear`: `DELETE FROM traffic`. -/
def SQLiteTrafficStore.clear (s : SQLiteTrafficStore) : SQLiteTrafficStore :=
  { s with rows := [] }

/-- Model of `SQLiteTrafficStore.__len__`: `SELECT COUNT(*)`. -/
def SQLiteTrafficStore.count (s : SQLiteTrafficStore) : Nat :=
  s.rows.length

/-- First row with the given id, in scan order (model of
`SELECT * FROM traffic WHERE id = ?` followed by `fetchone()`). -/
def SQLiteTrafficStore.findRow (s : SQLiteTrafficStore) (id : String) : Option TrafficRow :=
  s.rows.find? fun row => row.id = id

/-- Model of `SQLiteTrafficStore.get_by_id`.  The outer `Option` is the
exception channel: `none` means `_row_to_record` raised; `some none` means
no row was found. -/
def SQLiteTrafficStore.getById (s : SQLiteTrafficStore) (id : String) :
    Option (Option TrafficRecord) :=
  match s.findRow id with
  | none => some none
  | some row => (rowToRecord row).map some

/-! ## The query path (`SQLiteTrafficStore.query`) -/

/-- Python truthiness of an optional string argument: `None` and the empty
string both disable the corresponding filter (`if filter_x:`). -/
def activeStr : Option String → Option String
  | none => none
  | some s => if s = "" then none else some s

/-- Model of `filter_domain.replace("*", "%")`. -/
def starToPercent (s : String) : String :=
  ⟨s.data.map fun c => if c = '*' then '%' else c⟩

/-- WHERE clause of `SQLiteTrafficStore.query` applied to one row: the
conjunction of the domain `LIKE`, the case-insensitive type equality, the
parsed status condition, and the url `LIKE` — each present only when its
argument is truthy (and, for the status filter, only when the pattern was
recognized). -/
def rowMatches (fd ft fs fu : Option String) (row : TrafficRow) : Bool :=
  (match activeStr fd with
   | none => true
   | some d => sqlLike row.domain (starToPercent d)) &&
  (match activeStr ft with
   | none => true
   | some t => asciiLower row.resource_type == asciiLower t) &&
  (match activeStr fs with
   | none => true
   | some p =>
     match buildStatusCondition p with
     | none => true
     | some sc => sc.holds row.status) &&
  (match activeStr fu with
   | none => true
   | some u => sqlLike row.url ("%" ++ u ++ "%"))

/-- SQLite `LIMIT lim OFFSET off` semantics: a negative offset counts as
zero; a negative limit means no upper bound. -/
def sqlWindow {α : Type} (lim off : Int) (l : List α) : List α :=
  if lim < 0 then l.drop off.toNat else (l.drop off.toNat).take lim.toNat

/-- Rows produced by the SQL of `SQLiteTrafficStore.query`: the requested
limit clamped to 10 (`limit = min(limit, 10)`), the WHERE filter, `ORDER BY
timestamp DESC`, then `LIMIT ? OFFSET ?`. -/
def SQLiteTrafficStore.queryRows (s : SQLiteTrafficStore) (limit offset : Int)
    (fd ft fs fu : Option String) : List TrafficRow :=
  sqlWindow (min limit 10) offset (sortDesc (s.rows.filter (rowMatches fd ft fs fu)))

/-- Model of the Python list comprehension `[f(x) for x in l]` over a
body that can raise: `none` as soon as one element raises. -/
def comprehend {α β : Type} (f : α → Option β) : List α → Option (List β)
  | [] => some []
  | a :: as =>
    match f a with
    | none => none
    | some b => (comprehend f as).map (b :: ·)

/-- Model of `SQLiteTrafficStore.query`: the selected rows converted by
`_row_to_record`; `none` is the exception channel (a corrupt row raised). -/
def SQLiteTrafficStore.query (s : SQLiteTrafficStore) (limit offset : Int)
    (fd ft fs fu : Option String) : Option (List TrafficRecord) :=
  comprehend rowToRecord (s.queryRows limit offset fd ft fs fu)

/-! ## Chunked body reads (`SQLiteTrafficStore.read_body`) -/

/-- Result dictionary of `read_body`.  `content` is kept as a character
list (a Python `str`). -/
structure ReadBodyResp where
  content : List Char
  offset : Nat
  length : Nat
  total_size : Nat
  has_more : Bool
deriving DecidableEq, Repr

/-- Body column selected by the `field` argument; `none` for a field name
outside `request_body` / `response_body` is rejected before the query. -/
def bodyColumn (row : TrafficRow) (field : String) : Option (Option Bytes) :=
  if field = "request_body" then some row.request_body
  else if field = "response_body" then some row.response_body
  else none

/-- Model of `SQLiteTrafficStore.read_body`.  Offsets and lengths are taken
in `Nat`: the chunk protocol only produces nonnegative values (Python's
negative-index slicing is outside it).  A `NULL` body yields the empty
descriptor; otherwise the bytes are decoded (UTF-8, Latin-1 fallback) and
sliced as text characters. -/
def SQLiteTrafficStore.read_body (s : SQLiteTrafficStore) (request_id field : String)
    (offset length : Nat) : Option ReadBodyResp :=
  if field = "request_body" ∨ field = "response_body" then
    match s.findRow request_id with
    | none => none
    | some row =>
      match (bodyColumn row field).join with
      | none =>
        some { content := [], offset := 0, length := 0, total_size := 0, has_more := false }
      | some bytes =>
        let body := pyDecodeBody bytes
        let content := (body.drop offset).take length
        some
          { content := content
            offset := offset
            length := content.length
            total_size := body.length
            has_more := offset + length < body.length }
  else none

/-! ## Search (`SQLiteTrafficStore.search` / `_extract_snippet`) -/

/-- ASCII upper-casing of one character (SQLite `UPPER()`). -/
def asciiUpperChar (c : Char) : Char :=
  if 'a' ≤ c ∧ c ≤ 'z' then Char.ofNat (c.toNat - 32) else c

/-- ASCII upper-casing of a string. -/
def asciiUpper (s : String) : String :=
  ⟨s.data.map asciiUpperChar⟩

/-- One match descriptor appended by `search`. -/
structure MatchDescr where
  request_id : String
  url : String
  method : String
  domain : String
  response_size : Int
  matched_in : String
  snippet : String
  match_position : Int
  field_size : Int
deriving DecidableEq, Repr

/-- Model of `SQLiteTrafficStore._extract_snippet`: empty content gives an
empty snippet; with no case-insensitive occurrence of the keyword, the
first `2 * context_chars` characters (ellipsized when truncated); otherwise
`context_chars` characters of context on each side of the first occurrence,
ellipsized on each truncated side. -/
def extractSnippet (content keyword : List Char) (contextChars : Nat) : List Char :=
  if content = [] then []
  else
    match findSub (asciiLowerL content) (asciiLowerL keyword) with
    | none =>
      if 2 * contextChars < content.length then content.take (2 * contextChars) ++ "...".data
      else content
    | some pos =>
      let start := pos - contextChars
      let stop := min content.length (pos + keyword.length + contextChars)
      let snip := (content.drop start).take (stop - start)
      let snip := if 0 < start then "...".data ++ snip else snip
      if stop < content.length then snip ++ "...".data else snip

/-- Textual content of a searchable column, as selected by the per-field
SQL (`url`, the headers column text, `CAST(body AS TEXT)`); `none` is SQL
`NULL` and also covers field names the loop skips. -/
def fieldContent (field : String) (row : TrafficRow) : Option (List Char) :=
  if field = "url" then some row.url.data
  else if field = "request_headers" then (JsonCol.text row.request_headers).map String.data
  else if field = "request_body" then row.request_body.map castBlobText
  else if field = "response_headers" then (JsonCol.text row.response_headers).map String.data
  else if field = "response_body" then row.response_body.map castBlobText
  else none

/-- WHERE clause of the per-field search query: the column text matches
`%keyword%` (a `NULL` column fails the comparison). -/
def fieldWhere (field : String) (keyword : String) (row : TrafficRow) : Bool :=
  match fieldContent field row with
  | none => false
  | some t => likeMatch ("%" ++ keyword ++ "%").data t

/-- Base conditions of `search`: the optional exact case-insensitive
method match and the optional domain wildcard match. -/
def searchBase (method domain : Option String) (row : TrafficRow) : Bool :=
  (match activeStr method with
   | none => true
   | some m => asciiUpper row.method == asciiUpper m) &&
  (match activeStr domain with
   | none => true
   | some d => sqlLike row.domain (starToPercent d))

/-- SQLite `LIMIT` alone: a negative limit means no bound. -/
def sqlLimit {α : Type} (lim : Int) (l : List α) : List α :=
  if lim < 0 then l else l.take lim.toNat

/-- Rows returned by one per-field search query, newest first. -/
def searchFieldRows (s : SQLiteTrafficStore) (method domain : Option String)
    (keyword field : String) (limit : Int) : List TrafficRow :=
  sqlLimit limit (sortDesc (s.rows.filter fun r => searchBase method domain r && fieldWhere field keyword r))

/-- Computed `field_size` of a descriptor: for body fields the blob byte
length (`LENGTH(body)`), falling through to the content's character count
when that is zero or `NULL`; for the other fields `len(matched_content)`
(the column has no `field_size` and the `KeyError` path is taken). -/
def fieldSizeOf (field : String) (row : TrafficRow) (content : List Char) : Int :=
  if field = "request_body" ∨ field = "response_body" then
    let n : Int :=
      ((if field = "request_body" then row.request_body else row.response_body).map
        fun b => (b.length : Int)).getD 0
    if n = 0 then (content.length : Int) else n
  else (content.length : Int)

/-- Descriptor appended for one matching row of one field. -/
def mkDescr (keyword : String) (contextChars : Nat) (field : String) (row : TrafficRow) :
    MatchDescr where
  request_id := row.id
  url := row.url
  method := row.method
  domain := row.domain
  response_size := row.size
  matched_in := field
  snippet := ⟨extractSnippet ((fieldContent field row).getD []) keyword.data contextChars⟩
  match_position := ciFind ((fieldContent field row).getD []) keyword.data
  field_size := fieldSizeOf field row ((fieldContent field row).getD [])

/-- Python slice `l[:limit]` for an arbitrary integer bound. -/
def pySliceTo {α : Type} (limit : Int) (l : List α) : List α :=
  if 0 ≤ limit then l.take limit.toNat
  else l.take ((l.length : Int) + limit).toNat

/-- Appending one field's descriptors with the inner
`if len(matches) >= limit: break`; the flag records whether the break
fired. -/
def appendBreak (limit : Int) (acc : List MatchDescr) :
    List MatchDescr → List MatchDescr × Bool
  | [] => (acc, false)
  | d :: ds =>
    let acc2 := acc ++ [d]
    if limit ≤ (acc2.length : Int) then (acc2, true) else appendBreak limit acc2 ds

/-- Outer loop over the searched fields, stopping when the inner break
fired (the outer `break` re-checks the same condition). -/
def collectFields (limit : Int) (acc : List MatchDescr) :
    List (List MatchDescr) → List MatchDescr
  | [] => acc
  | l :: ls =>
    match appendBreak limit acc l with
    | (acc2, true) => acc2
    | (acc2, false) => collectFields limit acc2 ls

/-- The five concrete searchable fields, in loop order. -/
def allSearchFields : List String :=
  ["url", "request_headers", "request_body", "response_headers", "response_body"]

/-- Model of `SQLiteTrafficStore.search`. -/
def SQLiteTrafficStore.search (s : SQLiteTrafficStore) (keyword : String)
    (search_in : Option (List String)) (method domain : Option String)
    (context_chars : Nat) (limit : Int) : List MatchDescr :=
  let fields :=
    match search_in with
    | none => allSearchFields
    | some si => if si.contains "all" then allSearchFields else si
  let perField := fields.map fun f =>
    (searchFieldRows s method domain keyword f limit).map (mkDescr keyword context_chars f)
  pySliceTo limit (collectFields limit [] perField)

/-! ## Resource-type inference (`utils/mime_types.py`) -/

/-- Model of Python `dict.get(key, default)` on an association list. -/
def dictGet (m : List (String × String)) (key dflt : String) : String :=
  ((m.lookup key).getD dflt)

/-- Model of `_clean_mime_type`: the part before the first `;`,
whitespace-stripped (the empty string stays empty). -/
def cleanMimeType (mime : String) : String :=
  ⟨pyStripL (mime.data.takeWhile (· ≠ ';'))⟩

/-- Path component of a URL, modelled from `urllib.parse.urlparse(url).path`
for the URL shapes the proxy records: an optional fragment and query are
cut, a `scheme://netloc` head is skipped up to the next `/`. -/
def urlPath (url : String) : String :=
  let cs := (url.data.takeWhile (· ≠ '#')).takeWhile (· ≠ '?')
  match findSub cs "://".data with
  | some i =>
    let afterScheme := cs.drop (i + 3)
    ⟨afterScheme.dropWhile (· ≠ '/')⟩
  | none => ⟨cs⟩

/-- Model of `_get_extension`: the lower-cased `.ext` tail of the URL path
after its last dot, kept only when at most 6 characters long. -/
def getExtension (url : String) : String :=
  let path := (urlPath url).data
  if path.contains '.' then
    let after := (path.reverse.takeWhile (· ≠ '.')).reverse
    let ext := '.' :: asciiLowerL after
    if ext.length ≤ 6 then ⟨ext⟩ else ""
  else ""

/-- Model of `infer_resource_type` (`utils/mime_types.py`), translated
branch for branch. -/
def infer_resource_type (mime_type url : String) (headers : List (String × String)) : String :=
  let mimeLower := asciiLower (cleanMimeType mime_type)
  let ml := mimeLower.data
  let ext := getExtension url
  let upgrade := dictGet headers "Upgrade" (dictGet headers "upgrade" "")
  if asciiLower upgrade = "websocket" then "WebSocket"
  else
    let xhr := dictGet headers "X-Requested-With" (dictGet headers "x-requested-with" "")
    if asciiLower xhr = "xmlhttprequest" then "XHR"
    else if (findSub ml "text/html".data).isSome ∨
        ext ∈ [".html", ".htm", ".asp", ".php", ".jsp"] then "Document"
    else if (findSub ml "text/css".data).isSome ∨ ext = ".css" then "Stylesheet"
    else if leadEq "image/".data ml ∨
        ext ∈ [".jpg", ".jpeg", ".png", ".gif", ".svg", ".webp", ".ico", ".bmp"] then "Image"
    else if leadEq "audio/".data ml ∨ leadEq "video/".data ml ∨
        ext ∈ [".mp4", ".mp3", ".webm", ".ogg", ".wav", ".m4a", ".avi", ".mov"] then "Media"
    else if (findSub ml "font".data).isSome ∨
        ext ∈ [".woff", ".woff2", ".ttf", ".otf", ".eot"] then "Font"
    else if (findSub ml "javascript".data).isSome ∨ (findSub ml "ecmascript".data).isSome ∨
        ext ∈ [".js", ".mjs", ".jsx", ".ts", ".tsx"] then "Script"
    else if mimeLower ∈ ["application/json", "application/xml", "text/xml", "text/json"] ∨
        ext ∈ [".json", ".xml"] then "XHR"
    else if leadEq "application/".data ml ∧ ¬ (findSub ml "octet-stream".data).isSome then "XHR"
    else "Other"

/-! ## Tool layer (`tools/traffic_tools.py`) -/

/-- State of the backing database file at the default path. -/
inductive DbFile where
  | absent : DbFile
  | present (store : SQLiteTrafficStore) : DbFile
deriving DecidableEq, Repr

/-- Store created by `SQLiteTrafficStore.__init__` on a fresh file: the
default capacity and an empty `traffic` table. -/
def freshStore : SQLiteTrafficStore :=
  { max_size := 2000, rows := [] }

/-- Model of `_get_store()`: constructing `SQLiteTrafficStore()` runs
`_init_db`, whose `sqlite3.connect` and `CREATE TABLE` materialize the
database file when it is absent.  Returns the store and the resulting file
state. -/
def getStore : DbFile → SQLiteTrafficStore × DbFile
  | .absent => (freshStore, .present freshStore)
  | .present s => (s, .present s)

/-- Model of `SQLiteTrafficStore.exists()`: whether the file is on disk. -/
def dbExists : DbFile → Bool
  | .absent => false
  | .present _ => true

/-- Model of `TrafficRecord.to_summary`. -/
structure RecordSummary where
  id : String
  timestamp : Int
  method : String
  url : String
  domain : String
  status : Int
  type : String
  size : Int
  time : Int
  error : Option String
deriving DecidableEq, Repr

/-- Summary dictionary of one record. -/
def toSummary (r : TrafficRecord) : RecordSummary where
  id := r.id
  timestamp := r.timestamp
  method := r.method
  url := r.url
  domain := r.domain
  status := r.status
  type := r.resource_type
  size := r.size
  time := r.time_ms
  error := r.error

/-- Response dictionary of `traffic_list`: the not-started shape
(`success: False` with a message) or the normal shape (`success: True`). -/
inductive TrafficListResp where
  | notStarted (message : String) : TrafficListResp
  | ok (requests : List RecordSummary) (returned : Nat) (offset : Int)
      (store_size : Nat) (has_more : Bool) : TrafficListResp
deriving DecidableEq, Repr

/-- Whether a `traffic_list` response carries `success: True`. -/
def TrafficListResp.success : TrafficListResp → Bool
  | .notStarted _ => false
  | .ok _ _ _ _ _ => true

/-- The user-facing proxy-not-started message. -/
def notStartedMsg : String :=
  "proxy not started"

/-- Model of `traffic_list`: the store is constructed first (creating the
file when absent), then `SQLiteTrafficStore.exists()` is consulted, then
the clamped query runs.  The outer `Option` is the exception channel of
`query`. -/
def traffic_list (db : DbFile) (limit offset : Int) (fd ft fs fu : Option String) :
    Option TrafficListResp × DbFile :=
  let (store, db2) := getStore db
  if ¬ dbExists db2 then (some (.notStarted notStartedMsg), db2)
  else
    let limit := min limit 10
    match store.query limit offset fd ft fs fu with
    | none => (none, db2)
    | some recs =>
      (some (.ok (recs.map toSummary) recs.length offset store.count
        (decide (offset + (recs.length : Int) < (store.count : Int)))), db2)

/-- Response dictionary of `proxy_status`. -/
inductive ProxyStatusResp where
  | notRunning (message : String) : ProxyStatusResp
  | running (traffic_count : Nat) : ProxyStatusResp
deriving DecidableEq, Repr

/-- Model of `proxy_status`: unlike the other tools it consults
`SQLiteTrafficStore.exists()` before constructing a store, so an absent
file is observed as absent. -/
def proxy_status (db : DbFile) : ProxyStatusResp × DbFile :=
  match db with
  | .absent => (.notRunning notStartedMsg, .absent)
  | .present s => (.running s.count, .present s)

/-! ## Concrete fixtures used by witnesses and counterexamples -/

/-- Sample record: oldest, status 200, XHR on `a.com`. -/
def rec1 : TrafficRecord :=
  { id := "r1", timestamp := 1, method := "GET", url := "https://a.com/x",
    domain := "a.com", status := 200, resource_type := "XHR", size := 3, time_ms := 5 }

/-- Sample record: middle, status 404, Document on `b.com`. -/
def rec2 : TrafficRecord :=
  { id := "r2", timestamp := 2, method := "POST", url := "https://b.com/y",
    domain := "b.com", status := 404, resource_type := "Document", size := 4, time_ms := 6 }

/-- Sample record: newest, status 500, Image on `c.com`. -/
def rec3 : TrafficRecord :=
  { id := "r3", timestamp := 3, method := "GET", url := "https://c.com/z",
    domain := "c.com", status := 500, resource_type := "Image", size := 5, time_ms := 7 }

/-- Replacement for `rec1`: same id, different content. -/
def rec1b : TrafficRecord :=
  { id := "r1", timestamp := 8, method := "PUT", url := "https://a.com/x2",
    domain := "a.com", status := 201, resource_type := "Document", size := 9, time_ms := 2 }

/-- A store holding `rec1`, `rec2`, `rec3` with plenty of capacity. -/
def bigStore : SQLiteTrafficStore :=
  { max_size := 10, rows := [recordToRow rec1, recordToRow rec2, recordToRow rec3] }

/-- Record with an eleven-character response body. -/
def recBody : TrafficRecord :=
  { id := "rb", timestamp := 9, method := "GET", url := "https://a.com/b",
    domain := "a.com", status := 200, resource_type := "XHR", size := 11, time_ms := 5,
    response_body := some ("hello world".data.map Char.toNat) }

/-- Store holding only `recBody`. -/
def bodyStore : SQLiteTrafficStore :=
  { max_size := 10, rows := [recordToRow recBody] }

/-- A stored row whose `request_headers` column holds malformed non-empty
JSON text. -/
def corruptRow : TrafficRow :=
  { recordToRow rec1 with id := "bad", request_headers := JsonCol.bad "\x7boops" }

/-- Store holding only the corrupt row. -/
def corruptStore : SQLiteTrafficStore :=
  { max_size := 10, rows := [corruptRow] }

/-- Record whose url is `aXb`: it does not contain the text `a%b`, but
matches the `LIKE` pattern `%a%b%`. -/
def recAXB : TrafficRecord :=
  { id := "ra", timestamp := 4, method := "GET", url := "aXb",
    domain := "a.com", status := 200, resource_type := "XHR", size := 3, time_ms := 5 }

/-- Store holding only `recAXB`. -/
def axbStore : SQLiteTrafficStore :=
  { max_size := 10, rows := [recordToRow recAXB] }

/-- Tiny store of capacity 2 used to exercise eviction. -/
def st0 : SQLiteTrafficStore :=
  { max_size := 2, rows := [] }

/-- A JSON column that Python's `x or "{}"` rescues before parsing: SQL
`NULL` or the empty string. -/
def nullOrEmpty {α : Type} : JsonCol α → Prop
  | .null => True
  | .obj _ => False
  | .bad t => t = ""

/-- Number of calls the chunk protocol makes for a decoded body of
`total` characters read `length` characters at a time: one call even for an
empty body, else the rounded-up quotient. -/
def numChunks (total length : Nat) : Nat :=
  max 1 ((total + length - 1) / length)

/-- Contents returned by the successive protocol calls
`read_body(id, field, i * length, length)` for `i < n`. -/
def chunkContents (s : SQLiteTrafficStore) (id field : String) (length n : Nat) :
    List (List Char) :=
  (List.range n).map fun i =>
    ((s.read_body id field (i * length) length).map ReadBodyResp.content).getD []

/-! ## Theorems -/

/-- Claim C2 (code_bug evidence).  Invoking `traffic_list` while the
backing database file does not exist does NOT produce the claimed
`success: false` "proxy not started" response: constructing the store
inside `_get_store()` creates the database file before
`SQLiteTrafficStore.exists()` is consulted, so the dead guard is skipped
and a normal `success: true` response with zero records is returned (and
the file now exists).  Only `proxy_status`, which checks existence before
constructing a store, reports not-running. -/
theorem traffic_list_missing_db_succeeds :
    (traffic_list DbFile.absent 10 0 none none none none).1
        = some (TrafficListResp.ok [] 0 0 0 false)
      ∧ ((traffic_list DbFile.absent 10 0 none none none none).1.map
          TrafficListResp.success) = some true
      ∧ (traffic_list DbFile.absent 10 0 none none none none).2 = DbFile.present freshStore
      ∧ (proxy_status DbFile.absent).1 = ProxyStatusResp.notRunning notStartedMsg := by
  decide

/-- Claim C9 (counterexample).  A header spelled `UPGRADE` with value
`websocket` is not recognized: `infer_resource_type` consults only the
exact key spellings `Upgrade` and `upgrade`, so the claimed
case-insensitive header-name match fails and the result is `Other`, not
`WebSocket`. -/
theorem websocket_header_cex :
    infer_resource_type "" "/x" [("UPGRADE", "websocket")] = "Other"
      ∧ infer_resource_type "" "/x" [("UPGRADE", "websocket")] ≠ "WebSocket" := by
  decide

/-- Claim C9 (amended).  When the lookup
`headers.get("Upgrade", headers.get("upgrade", ""))` yields a value equal
to `websocket` case-insensitively, `infer_resource_type` returns
`WebSocket` for every content type and URL, before any content-type or
extension rule. -/
theorem websocket_header_amended (ct url : String) (hs : List (String × String))
    (h : asciiLower (dictGet hs "Upgrade" (dictGet hs "upgrade" "")) = "websocket") :
    infer_resource_type ct url hs = "WebSocket" := by
  unfold infer_resource_type
  simp only [h]
  rfl

/-- Witness for `websocket_header_amended` at a concrete input, with a
value in mixed case and the lower-case key spelling. -/
theorem websocket_header_amended_witness :
    infer_resource_type "text/html" "https://a.com/x.html" [("upgrade", "WebSocket")]
      = "WebSocket" :=
  websocket_header_amended "text/html" "https://a.com/x.html" [("upgrade", "WebSocket")]
    (by decide)

/-- Claim C10.  `LIKE` metacharacters in search keywords are not escaped:
searching for the keyword `a%b` returns a match descriptor for a record
whose url `aXb` does not contain `a%b` literally (the `%` matched the `X`),
and that descriptor has `match_position = -1` with the snippet falling back
to the leading characters of the field (the whole field here, as it is
shorter than `2 * context_chars`). -/
theorem search_like_metachar_unescaped :
    axbStore.search "a%b" (some ["url"]) none none 150 10
        = [{ request_id := "ra", url := "aXb", method := "GET", domain := "a.com",
             response_size := 3, matched_in := "url", snippet := "aXb",
             match_position := -1, field_size := 3 }]
      ∧ findSub "aXb".data "a%b".data = none := by
  decide

/-- Claim C4 (counterexample).  A stored row whose `request_headers`
column holds the malformed non-empty JSON text `{oops` makes both
`get_by_id` and `query` raise (`json.loads` has no exception handler in
`_row_to_record`), rather than decoding the sub-field to an empty
mapping. -/
theorem corrupt_subfield_cex :
    corruptStore.getById "bad" = none
      ∧ corruptStore.query 10 0 none none none none = none := by
  decide

/-- Helper: a rescued (`NULL` or empty) JSON column loads as the empty
mapping. -/
theorem jsonColLoad_nullOrEmpty {α : Type} (c : JsonCol α) (h : nullOrEmpty c) :
    jsonColLoad c = some [] := by
  cases c with
  | null => rfl
  | obj m => exact absurd h (by simp [nullOrEmpty])
  | bad t => simp [nullOrEmpty] at h; simp [jsonColLoad, h]

/-- Helper: a comprehension over elements that never raise never raises. -/
theorem comprehend_isSome {α β : Type} (f : α → Option β) (l : List α)
    (h : ∀ a ∈ l, (f a).isSome) : (comprehend f l).isSome := by
  induction l with
  | nil => rfl
  | cons a as ih =>
    have ha := h a (by simp)
    rcases Option.isSome_iff_exists.mp ha with ⟨b, hb⟩
    have := ih fun x hx => h x (by simp [hx])
    rcases Option.isSome_iff_exists.mp this with ⟨bs, hbs⟩
    simp [comprehend, hb, hbs]

/-- Helper: `_row_to_record` succeeds when all three JSON columns load. -/
theorem rowToRecord_isSome (row : TrafficRow)
    (h1 : (jsonColLoad row.request_headers).isSome)
    (h2 : (jsonColLoad row.response_headers).isSome)
    (h3 : (jsonColLoad row.timing).isSome) : (rowToRecord row).isSome := by
  rcases Option.isSome_iff_exists.mp h1 with ⟨a, ha⟩
  rcases Option.isSome_iff_exists.mp h2 with ⟨b, hb⟩
  rcases Option.isSome_iff_exists.mp h3 with ⟨c, hc⟩
  simp [rowToRecord, ha, hb, hc]

/-- Helper: every row selected by `queryRows` is a row of the store. -/
theorem mem_of_mem_queryRows (s : SQLiteTrafficStore) (limit offset : Int)
    (fd ft fs fu : Option String) (r : TrafficRow)
    (h : r ∈ s.queryRows limit offset fd ft fs fu) : r ∈ s.rows := by
  unfold SQLiteTrafficStore.queryRows sqlWindow at h
  have hdrop : r ∈ (sortDesc (s.rows.filter (rowMatches fd ft fs fu))).drop offset.toNat := by
    by_cases hc : min limit 10 < 0
    · simpa [hc] using h
    · simp only [hc, if_false] at h
      exact List.mem_of_mem_take h
  have hsort := List.mem_of_mem_drop hdrop
  unfold sortDesc at hsort
  rw [List.mem_insertionSort] at hsort
  exact (List.mem_filter.mp hsort).1

/-- Claim C4 (amended).  The `or "{}"` fallback in `_row_to_record`
rescues exactly the `NULL` / empty-string sub-field columns, decoding them
to empty mappings without failing the read: `get_by_id` on such a row
succeeds and returns the row's fields with empty mappings, and `query`
never raises on a store all of whose rows have loadable sub-field columns.
(Non-empty unparsable text instead raises, per `corrupt_subfield_cex`.) -/
theorem corrupt_subfield_amended :
    (∀ (s : SQLiteTrafficStore) (id : String) (row : TrafficRow),
      s.findRow id = some row →
      nullOrEmpty row.request_headers →
      nullOrEmpty row.response_headers →
      nullOrEmpty row.timing →
      s.getById id = some (some
        { id := row.id, timestamp := row.timestamp, method := row.method,
          url := row.url, domain := row.domain, status := row.status,
          resource_type := row.resource_type, size := row.size, time_ms := row.time_ms,
          request_headers := [], request_body := row.request_body,
          request_body_size := row.request_body_size.getD 0,
          response_headers := [], response_body := row.response_body,
          timing := [], error := row.error }))
  ∧ (∀ (s : SQLiteTrafficStore) (limit offset : Int) (fd ft fs fu : Option String),
      (∀ row ∈ s.rows, (jsonColLoad row.request_headers).isSome ∧
        (jsonColLoad row.response_headers).isSome ∧ (jsonColLoad row.timing).isSome) →
      (s.query limit offset fd ft fs fu).isSome) := by
  constructor
  · intro s id row hrow h1 h2 h3
    unfold SQLiteTrafficStore.getById
    rw [hrow]
    simp [rowToRecord, jsonColLoad_nullOrEmpty _ h1, jsonColLoad_nullOrEmpty _ h2,
      jsonColLoad_nullOrEmpty _ h3]
  · intro s limit offset fd ft fs fu h
    unfold SQLiteTrafficStore.query
    refine comprehend_isSome _ _ fun row hrow => ?_
    have hm := mem_of_mem_queryRows s limit offset fd ft fs fu row hrow
    rcases h row hm with ⟨h1, h2, h3⟩
    exact rowToRecord_isSome row h1 h2 h3

/-- Witness for `corrupt_subfield_amended`: a concrete store whose single
row has a `NULL` headers column, an empty-text headers column, and a
`NULL` timing column. -/
theorem corrupt_subfield_amended_witness :
    ({ max_size := 10,
       rows := [{ recordToRow rec1 with
                    request_headers := JsonCol.null,
                    response_headers := JsonCol.bad "",
                    timing := JsonCol.null }] } : SQLiteTrafficStore).getById "r1"
      = some (some { rec1 with request_headers := [], response_headers := [], timing := [] }) := by
  have := corrupt_subfield_amended.1
    { max_size := 10,
      rows := [{ recordToRow rec1 with
                   request_headers := JsonCol.null,
                   response_headers := JsonCol.bad "",
                   timing := JsonCol.null }] } "r1"
    { recordToRow rec1 with
        request_headers := JsonCol.null,
        response_headers := JsonCol.bad "",
        timing := JsonCol.null }
    (by decide) trivial rfl trivial
  simpa [rec1, recordToRow] using this

/-- Helper: boolean rearrangement moving the status conjunct out of the
WHERE conjunction. -/
theorem bool_status_shuffle (a s c : Bool) :
    ((a && s) && c) = (((a && true) && c) && s) := by
  cases a <;> cases s <;> cases c <;> rfl

/-- Helper: when the status pattern is truthy and recognized, `query`
filters by the parsed condition conjoined with the remaining filters. -/
theorem queryRows_status_cond (s : SQLiteTrafficStore) (limit offset : Int)
    (fd ft fu : Option String) (p : String) (sc : StatusCond)
    (hp : p ≠ "") (hb : buildStatusCondition p = some sc) :
    s.queryRows limit offset fd ft (some p) fu
      = sqlWindow (min limit 10) offset (sortDesc (s.rows.filter fun r =>
          rowMatches fd ft none fu r && sc.holds r.status)) := by
  unfold SQLiteTrafficStore.queryRows
  congr 2
  apply List.filter_congr
  intro r _
  unfold rowMatches
  simp only [activeStr, if_neg hp, hb]
  exact bool_status_shuffle _ _ _

/-- Claim C6.  The status filter's three recognized forms select exactly
the claimed ranges among the rows passing the other filters, inside the
same ordering and limit window, and an unrecognized pattern applies no
status condition at all. -/
theorem status_filter_forms :
    (∀ (s : SQLiteTrafficStore) (limit offset : Int) (fd ft fu : Option String),
      s.queryRows limit offset fd ft (some "4xx") fu
        = sqlWindow (min limit 10) offset (sortDesc (s.rows.filter fun r =>
            rowMatches fd ft none fu r && decide (400 ≤ r.status ∧ r.status ≤ 499))))
  ∧ (∀ (s : SQLiteTrafficStore) (limit offset : Int) (fd ft fu : Option String),
      s.queryRows limit offset fd ft (some "200-299") fu
        = sqlWindow (min limit 10) offset (sortDesc (s.rows.filter fun r =>
            rowMatches fd ft none fu r && decide (200 ≤ r.status ∧ r.status ≤ 299))))
  ∧ (∀ (s : SQLiteTrafficStore) (limit offset : Int) (fd ft fu : Option String),
      s.queryRows limit offset fd ft (some "200") fu
        = sqlWindow (min limit 10) offset (sortDesc (s.rows.filter fun r =>
            rowMatches fd ft none fu r && (r.status == 200))))
  ∧ (∀ (p : String), buildStatusCondition p = none →
      ∀ (s : SQLiteTrafficStore) (limit offset : Int) (fd ft fu : Option String),
        s.queryRows limit offset fd ft (some p) fu
          = s.queryRows limit offset fd ft none fu) := by
  refine ⟨?_, ?_, ?_, ?_⟩
  · intro s limit offset fd ft fu
    have h := queryRows_status_cond s limit offset fd ft fu "4xx"
      (StatusCond.between 400 499) (by decide) (by decide)
    simpa [StatusCond.holds] using h
  · intro s limit offset fd ft fu
    have h := queryRows_status_cond s limit offset fd ft fu "200-299"
      (StatusCond.between 200 299) (by decide) (by decide)
    simpa [StatusCond.holds] using h
  · intro s limit offset fd ft fu
    have h := queryRows_status_cond s limit offset fd ft fu "200"
      (StatusCond.eq 200) (by decide) (by decide)
    simpa [StatusCond.holds] using h
  · intro p hp s limit offset fd ft fu
    unfold SQLiteTrafficStore.queryRows
    congr 2
    apply List.filter_congr
    intro r _
    unfold rowMatches
    by_cases h0 : p = ""
    · simp [activeStr, h0]
    · simp only [activeStr, if_neg h0, hp]

/-- Witness for `status_filter_forms` at concrete inputs: the `4xx` form
on `bigStore` and an unrecognized pattern behaving as no filter. -/
theorem status_filter_forms_witness :
    (bigStore.queryRows 10 0 none none (some "4xx") none
        = sqlWindow (min 10 10) 0 (sortDesc (bigStore.rows.filter fun r =>
            rowMatches none none none none r && decide (400 ≤ r.status ∧ r.status ≤ 499))))
  ∧ (bigStore.queryRows 10 0 none none (some "garbage") none
        = bigStore.queryRows 10 0 none none none none) :=
  ⟨status_filter_forms.1 bigStore 10 0 none none none,
   status_filter_forms.2.2.2 "garbage" (by decide) bigStore 10 0 none none none⟩

/-- Helper: a successful comprehension relates inputs and outputs
pointwise. -/
theorem comprehend_forall2 {α β : Type} (f : α → Option β) :
    ∀ (l : List α) (l2 : List β), comprehend f l = some l2 →
      List.Forall₂ (fun a b => f a = some b) l l2 := by
  intro l
  induction l with
  | nil =>
    intro l2 h
    simp only [comprehend, Option.some.injEq] at h
    subst h
    exact List.Forall₂.nil
  | cons a as ih =>
    intro l2 h
    simp only [comprehend] at h
    cases hfa : f a with
    | none => rw [hfa] at h; exact absurd h (by simp)
    | some b =>
      rw [hfa] at h
      rcases Option.map_eq_some'.mp h with ⟨bs, hbs, rfl⟩
      exact List.Forall₂.cons hfa (ih bs hbs)

/-- Helper: the right-hand elements of a `Forall₂` have related left
partners. -/
theorem forall2_mem_right {α β : Type} {R : α → β → Prop} :
    ∀ {l : List α} {l2 : List β}, List.Forall₂ R l l2 →
      ∀ b ∈ l2, ∃ a ∈ l, R a b := by
  intro l l2 h
  induction h with
  | nil => intro b hb; cases hb
  | cons hr _ ih =>
    intro b hb
    rcases List.mem_cons.mp hb with rfl | hb2
    · exact ⟨_, by simp, hr⟩
    · rcases ih b hb2 with ⟨a, ha, hab⟩
      exact ⟨a, by simp [ha], hab⟩

/-- Helper: pairwise facts transfer along a `Forall₂` relation. -/
theorem pairwise_of_forall2 {α β : Type} {R : α → β → Prop}
    {P : α → α → Prop} {Q : β → β → Prop}
    (hPQ : ∀ a a2 b b2, R a b → R a2 b2 → P a a2 → Q b b2) :
    ∀ {l : List α} {l2 : List β}, List.Forall₂ R l l2 →
      l.Pairwise P → l2.Pairwise Q := by
  intro l l2 h
  induction h with
  | nil => intro; exact List.Pairwise.nil
  | @cons a b as bs hr hrest ih =>
    intro hp
    rcases List.pairwise_cons.mp hp with ⟨hhead, htail⟩
    refine List.Pairwise.cons ?_ (ih htail)
    intro y hy
    rcases forall2_mem_right hrest y hy with ⟨x, hx, hxy⟩
    exact hPQ a x b y hr hxy (hhead x hx)

/-- Helper: a record produced by `_row_to_record` copies the row's scalar
columns unchanged. -/
theorem rowToRecord_fields (row : TrafficRow) (rec : TrafficRecord)
    (h : rowToRecord row = some rec) :
    rec.id = row.id ∧ rec.timestamp = row.timestamp ∧ rec.url = row.url ∧
      rec.domain = row.domain ∧ rec.status = row.status ∧
      rec.resource_type = row.resource_type := by
  unfold rowToRecord at h
  cases h1 : jsonColLoad row.request_headers with
  | none => rw [h1] at h; exact absurd h (by simp)
  | some a =>
    cases h2 : jsonColLoad row.response_headers with
    | none => rw [h1, h2] at h; exact absurd h (by simp)
    | some b =>
      cases h3 : jsonColLoad row.timing with
      | none => rw [h1, h2, h3] at h; exact absurd h (by simp)
      | some c =>
        rw [h1, h2, h3] at h
        injection h with h4
        subst h4
        exact ⟨rfl, rfl, rfl, rfl, rfl, rfl⟩

/-- Helper: the SQL window of a pairwise-ordered list stays ordered. -/
theorem sqlWindow_pairwise {α : Type} {R : α → α → Prop} (lim off : Int) (l : List α)
    (h : l.Pairwise R) : (sqlWindow lim off l).Pairwise R := by
  unfold sqlWindow
  have hd : (l.drop off.toNat).Pairwise R := h.sublist (List.drop_sublist _ _)
  split
  · exact hd
  · exact hd.sublist (List.take_sublist _ _)

/-- Helper: the rows of a query result are sorted newest-first. -/
theorem queryRows_sorted (s : SQLiteTrafficStore) (limit offset : Int)
    (fd ft fs fu : Option String) :
    (s.queryRows limit offset fd ft fs fu).Pairwise tsGe := by
  unfold SQLiteTrafficStore.queryRows
  exact sqlWindow_pairwise _ _ _ (List.sorted_insertionSort tsGe _)

/-- Claim C5 (counterexample).  With a negative requested limit the SQL
`LIMIT` clause imposes no bound at all: `query(limit = -1)` on a
three-record store returns all three records, exceeding `min(-1, 10)`. -/
theorem query_limit_cex :
    bigStore.query (-1) 0 none none none none = some [rec3, rec2, rec1]
      ∧ ¬ (((3 : Nat) : Int) ≤ min (-1) 10) := by
  constructor
  · decide
  · decide

/-- Claim C5 (amended).  For every nonnegative requested limit `L`, every
offset, every filter combination and every store contents, `query`
returns at most `min(L, 10)` records, and the returned sequence is sorted
by timestamp descending (the descending order holds for negative limits
too; only the count bound needs `0 ≤ L`, since SQLite treats a negative
`LIMIT` as unlimited). -/
theorem query_limit_ordering (s : SQLiteTrafficStore) (limit offset : Int)
    (fd ft fs fu : Option String) (out : List TrafficRecord)
    (hL : 0 ≤ limit) (hq : s.query limit offset fd ft fs fu = some out) :
    ((out.length : Int) ≤ min limit 10)
      ∧ out.Pairwise (fun a b => b.timestamp ≤ a.timestamp) := by
  have hf2 := comprehend_forall2 rowToRecord _ out hq
  constructor
  · have hlen : out.length = (s.queryRows limit offset fd ft fs fu).length :=
      hf2.length_eq.symm
    have hmin : (0 : Int) ≤ min limit 10 := le_min hL (by norm_num)
    have hwin : (s.queryRows limit offset fd ft fs fu).length ≤ (min limit 10).toNat := by
      unfold SQLiteTrafficStore.queryRows sqlWindow
      have hc : ¬ min limit 10 < 0 := not_lt.mpr hmin
      simp only [hc, if_false, List.length_take]
      exact min_le_left _ _
    have hcast : ((s.queryRows limit offset fd ft fs fu).length : Int)
        ≤ ((min limit 10).toNat : Int) := by exact_mod_cast hwin
    rw [Int.toNat_of_nonneg hmin] at hcast
    rw [hlen]
    exact hcast
  · refine pairwise_of_forall2 ?_ hf2 (queryRows_sorted s limit offset fd ft fs fu)
    intro a a2 b b2 hab ha2b2 hP
    have e1 := (rowToRecord_fields a b hab).2.1
    have e2 := (rowToRecord_fields a2 b2 ha2b2).2.1
    unfold tsGe at hP
    rw [e1, e2]
    exact hP

/-- Witness for `query_limit_ordering` on `bigStore` with limit 10. -/
theorem query_limit_ordering_witness :
    ((([rec3, rec2, rec1].length : Nat) : Int) ≤ min (10 : Int) 10)
      ∧ [rec3, rec2, rec1].Pairwise (fun a b => b.timestamp ≤ a.timestamp) :=
  query_limit_ordering bigStore 10 0 none none none none [rec3, rec2, rec1]
    (by norm_num) (by decide)

/-- Helper: when `x` occurs once among the (distinct) row ids, filtering it
out removes exactly one row. -/
theorem filter_ne_id_length :
    ∀ (l : List TrafficRow) (x : String), (l.map (·.id)).Nodup → x ∈ l.map (·.id) →
      (l.filter fun row => row.id ≠ x).length + 1 = l.length := by
  intro l
  induction l with
  | nil => intro x _ hm; simp at hm
  | cons a as ih =>
    intro x hnd hm
    simp only [List.map_cons, List.nodup_cons] at hnd
    rcases hnd with ⟨hna, hnd⟩
    simp only [List.map_cons, List.mem_cons] at hm
    rcases hm with rfl | hm
    · have hfa : (as.filter fun row => row.id ≠ a.id) = as := by
        apply List.filter_eq_self.mpr
        intro b hb
        simp only [ne_eq, decide_eq_true_eq]
        intro hba
        exact hna (hba ▸ List.mem_map_of_mem (·.id) hb)
      simp [List.filter_cons, hfa]
      intro b hb hba
      exact hna (hba ▸ List.mem_map_of_mem (·.id) hb)
    · have hax : a.id ≠ x := fun e => hna (e ▸ hm)
      have hrec := ih x hnd hm
      simp only [ne_eq, decide_not] at hrec ⊢
      simp [List.filter_cons, hax]
      omega

/-- Helper: reading back the row written for a record reproduces the
record (the `json` round-trip on its mappings is the identity). -/
theorem rowToRecord_recordToRow (r : TrafficRecord) :
    rowToRecord (recordToRow r) = some r := rfl

/-- Claim C8.  Adding a record whose id is already present replaces that
record's content wholesale and leaves the record count unchanged: on a
well-formed store (distinct ids, within capacity), `count` after `add r`
equals `count` before, and `get_by_id r.id` afterwards returns exactly
`r`'s fields. -/
theorem add_upsert (s : SQLiteTrafficStore) (r : TrafficRecord)
    (hnodup : (s.rows.map (·.id)).Nodup)
    (hcap : s.rows.length ≤ s.max_size)
    (hmem : r.id ∈ s.rows.map (·.id)) :
    (s.add r).count = s.count ∧ (s.add r).getById r.id = some (some r) := by
  have hlen := filter_ne_id_length s.rows r.id hnodup hmem
  have hpre : ((s.rows.filter fun row => row.id ≠ r.id) ++ [recordToRow r]).length
      = s.rows.length := by
    simp only [List.length_append, List.length_cons, List.length_nil]
    omega
  have hclean :
      cleanup s.max_size ((s.rows.filter fun row => row.id ≠ r.id) ++ [recordToRow r])
        = (s.rows.filter fun row => row.id ≠ r.id) ++ [recordToRow r] := by
    unfold cleanup
    rw [hpre, if_neg (not_lt.mpr hcap)]
  have hrows : (s.add r).rows = (s.rows.filter fun row => row.id ≠ r.id) ++ [recordToRow r] := by
    unfold SQLiteTrafficStore.add
    exact hclean
  constructor
  · unfold SQLiteTrafficStore.count
    rw [hrows, hpre]
  · have hfind : (s.add r).findRow r.id = some (recordToRow r) := by
      unfold SQLiteTrafficStore.findRow
      rw [hrows, List.find?_append]
      have hnone : (s.rows.filter fun row => row.id ≠ r.id).find?
          (fun row => row.id = r.id) = none := by
        apply List.find?_eq_none.mpr
        intro x hx
        have hne := (List.mem_filter.mp hx).2
        simp only [ne_eq, decide_not, Bool.not_eq_eq_eq_not, Bool.not_true,
          decide_eq_false_iff_not] at hne
        simp [hne]
      rw [hnone]
      simp [recordToRow]
    unfold SQLiteTrafficStore.getById
    rw [hfind]
    rfl

/-- Witness for `add_upsert`: replacing `rec1` by `rec1b` (same id `r1`)
in a singleton store. -/
theorem add_upsert_witness :
    (({ max_size := 10, rows := [recordToRow rec1] } : SQLiteTrafficStore).add rec1b).count
        = ({ max_size := 10, rows := [recordToRow rec1] } : SQLiteTrafficStore).count
      ∧ (({ max_size := 10, rows := [recordToRow rec1] } : SQLiteTrafficStore).add rec1b).getById
          "r1" = some (some rec1b) :=
  add_upsert { max_size := 10, rows := [recordToRow rec1] } rec1b
    (by decide) (by decide) (by decide)

/-- Helper: a selected body column certifies a valid field name. -/
theorem bodyColumn_field (row : TrafficRow) (field : String) (bytes : Bytes)
    (h : (bodyColumn row field).join = some bytes) :
    field = "request_body" ∨ field = "response_body" := by
  by_cases h1 : field = "request_body"
  · exact Or.inl h1
  · by_cases h2 : field = "response_body"
    · exact Or.inr h2
    · unfold bodyColumn at h
      rw [if_neg h1, if_neg h2] at h
      exact absurd h (by simp)

/-- Helper: the first `n` length-`len` chunks of a list concatenate to its
first `n * len` elements. -/
theorem chunks_flatten {α : Type} (l : List α) (len : Nat) :
    ∀ n : Nat, ((List.range n).map fun i => (l.drop (i * len)).take len).flatten
      = l.take (n * len) := by
  intro n
  induction n with
  | zero => simp
  | succ k ih =>
    rw [List.range_succ, List.map_append, List.flatten_append]
    simp only [List.map_cons, List.map_nil, List.flatten_cons, List.flatten_nil,
      List.append_nil]
    rw [ih, Nat.succ_mul, List.take_add]

/-- Helper: the chunk count covers the whole body. -/
theorem numChunks_mul_ge (total len : Nat) (h : 0 < len) :
    total ≤ numChunks total len * len := by
  unfold numChunks
  rcases Nat.eq_zero_or_pos total with rfl | ht
  · simp
  · have hq := Nat.div_add_mod (total + len - 1) len
    have hr : (total + len - 1) % len < len := Nat.mod_lt _ h
    have h1 : 1 ≤ (total + len - 1) / len := by
      rw [Nat.le_div_iff_mul_le h]
      omega
    have hmax : max 1 ((total + len - 1) / len) = (total + len - 1) / len := by omega
    rw [hmax]
    have hcomm : (total + len - 1) / len * len = len * ((total + len - 1) / len) :=
      Nat.mul_comm _ _
    omega

/-- Helper: a chunk is followed by another exactly when it does not reach
the end of the body. -/
theorem numChunks_lt_iff (total len : Nat) (h : 0 < len) (i : Nat) :
    (i + 1 < numChunks total len) ↔ (i * len + len < total) := by
  unfold numChunks
  rcases Nat.eq_zero_or_pos total with rfl | ht
  · have hz : (0 + len - 1) / len = 0 := Nat.div_eq_of_lt (by omega)
    rw [hz]
    omega
  · have h1 : 1 ≤ (total + len - 1) / len := by
      rw [Nat.le_div_iff_mul_le h]
      omega
    have hmax : max 1 ((total + len - 1) / len) = (total + len - 1) / len := by omega
    rw [hmax]
    have hstep : i + 2 ≤ (total + len - 1) / len ↔ (i + 2) * len ≤ total + len - 1 :=
      Nat.le_div_iff_mul_le h
    have hmul : (i + 2) * len = i * len + len + len := by ring
    omega

/-- Claim C3.  For a stored record whose selected body field is a non-null
byte value: `read_body(id, field, offset, length)` returns the character
substring `[offset, offset + length)` of the bytes decoded as UTF-8 with
Latin-1 fallback, `total_size` equal to the decoded text's character
length, and `has_more` true exactly when `offset + length < total_size`;
consequently (for a positive chunk length) the contents of the protocol's
successive calls at offsets `0, length, 2 * length, …` concatenate to the
decoded text exactly, and each call's `has_more` tells whether another
chunk follows. -/
theorem read_body_chunked (s : SQLiteTrafficStore) (id field : String) (row : TrafficRow)
    (bytes : Bytes) (offset length : Nat)
    (hrow : s.findRow id = some row)
    (hbody : (bodyColumn row field).join = some bytes) :
    (s.read_body id field offset length
        = some { content := ((pyDecodeBody bytes).drop offset).take length,
                 offset := offset,
                 length := (((pyDecodeBody bytes).drop offset).take length).length,
                 total_size := (pyDecodeBody bytes).length,
                 has_more := decide (offset + length < (pyDecodeBody bytes).length) })
  ∧ (0 < length →
      (chunkContents s id field length
          (numChunks (pyDecodeBody bytes).length length)).flatten = pyDecodeBody bytes
      ∧ ∀ i : Nat,
          ((s.read_body id field (i * length) length).map ReadBodyResp.has_more).getD false
            = decide (i + 1 < numChunks (pyDecodeBody bytes).length length)) := by
  have hgen : ∀ (off len2 : Nat), s.read_body id field off len2
      = some { content := ((pyDecodeBody bytes).drop off).take len2,
               offset := off,
               length := (((pyDecodeBody bytes).drop off).take len2).length,
               total_size := (pyDecodeBody bytes).length,
               has_more := decide (off + len2 < (pyDecodeBody bytes).length) } := by
    intro off len2
    unfold SQLiteTrafficStore.read_body
    rw [if_pos (bodyColumn_field row field bytes hbody)]
    simp only [hrow, hbody]
  refine ⟨hgen offset length, fun hlen => ⟨?_, ?_⟩⟩
  · unfold chunkContents
    have hmap : ∀ i : Nat,
        ((s.read_body id field (i * length) length).map ReadBodyResp.content).getD []
          = ((pyDecodeBody bytes).drop (i * length)).take length := by
      intro i
      rw [hgen (i * length) length]
      rfl
    rw [List.map_congr_left fun i _ => hmap i]
    rw [chunks_flatten (pyDecodeBody bytes) length]
    exact List.take_of_length_le (numChunks_mul_ge (pyDecodeBody bytes).length length hlen)
  · intro i
    rw [hgen (i * length) length]
    exact decide_eq_decide.mpr (numChunks_lt_iff (pyDecodeBody bytes).length length hlen i).symm

/-- Witness for `read_body_chunked`: the eleven-character body of
`recBody` read in chunks of four. -/
theorem read_body_chunked_witness :
    bodyStore.read_body "rb" "response_body" 0 4
        = some { content := "hell".data, offset := 0, length := 4,
                 total_size := 11, has_more := true }
      ∧ (chunkContents bodyStore "rb" "response_body" 4
          (numChunks 11 4)).flatten = "hello world".data := by
  have h := read_body_chunked bodyStore "rb" "response_body" (recordToRow recBody)
    ("hello world".data.map Char.toNat) 0 4 (by decide) (by decide)
  constructor
  · rw [h.1]
    decide
  · exact (h.2 (by norm_num)).1

/-- Helper: `leadEq` recognizes initial segments. -/
theorem leadEq_iff (needle : List Char) :
    ∀ s : List Char, leadEq needle s = true ↔ ∃ rest, s = needle ++ rest := by
  induction needle with
  | nil => intro s; simp [leadEq]
  | cons a ps ih =>
    intro s
    cases s with
    | nil => simp [leadEq]
    | cons b ss =>
      simp only [leadEq, Bool.and_eq_true, beq_iff_eq, ih ss, List.cons_append,
        List.cons.injEq]
      constructor
      · rintro ⟨rfl, rest, rfl⟩; exact ⟨rest, rfl, rfl⟩
      · rintro ⟨rest, rfl, rfl⟩; exact ⟨rfl, rest, rfl⟩

/-- Helper: `findSub` succeeds exactly on substrings. -/
theorem findSub_isSome_iff :
    ∀ (hay needle : List Char), (findSub hay needle).isSome ↔
      ∃ pre suf, hay = pre ++ needle ++ suf := by
  intro hay
  induction hay with
  | nil =>
    intro needle
    simp only [findSub]
    by_cases hl : leadEq needle [] = true
    · rw [if_pos hl]
      constructor
      · intro _
        rcases (leadEq_iff needle []).mp hl with ⟨rest, hrest⟩
        rcases List.append_eq_nil.mp hrest.symm with ⟨h1, _⟩
        subst h1
        exact ⟨[], [], by simp⟩
      · intro _; rfl
    · rw [if_neg hl]
      constructor
      · intro h; exact absurd h (by simp)
      · rintro ⟨pre, suf, h⟩
        rcases List.append_eq_nil.mp (List.append_eq_nil.mp
          ((List.append_assoc pre needle suf ▸ h).symm)).2 with ⟨h3, _⟩
        subst h3
        exact absurd ((leadEq_iff [] []).mpr ⟨[], rfl⟩) hl
  | cons c rest ih =>
    intro needle
    simp only [findSub]
    by_cases hl : leadEq needle (c :: rest) = true
    · rw [if_pos hl]
      constructor
      · intro _
        rcases (leadEq_iff needle (c :: rest)).mp hl with ⟨r2, hr2⟩
        exact ⟨[], r2, by simp [hr2]⟩
      · intro _; rfl
    · rw [if_neg hl]
      have hmap : (Option.map (fun x => x + 1) (findSub rest needle)).isSome
          = (findSub rest needle).isSome := by
        cases findSub rest needle <;> rfl
      rw [hmap, ih needle]
      constructor
      · rintro ⟨pre, suf, rfl⟩
        exact ⟨c :: pre, suf, rfl⟩
      · rintro ⟨pre, suf, h⟩
        cases pre with
        | nil =>
          exfalso
          apply hl
          refine (leadEq_iff needle (c :: rest)).mpr ⟨suf, ?_⟩
          simpa using h
        | cons p pre2 =>
          simp only [List.cons_append, List.cons.injEq] at h
          exact ⟨pre2, suf, h.2⟩

/-- Helper: a leading `%` tries every suffix of the value. -/
theorem likeMatch_percent (ps : List Char) (s : List Char) :
    likeMatch ('%' :: ps) s = true ↔ ∃ t, t <:+ s ∧ likeMatch ps t = true := by
  show (s.tails.any (likeMatch ps)) = true ↔ _
  rw [List.any_eq_true]
  constructor
  · rintro ⟨t, ht, h⟩; exact ⟨t, (List.mem_tails t s).mp ht, h⟩
  · rintro ⟨t, ht, h⟩; exact ⟨t, (List.mem_tails t s).mpr ht, h⟩

/-- Helper: the pattern `%` alone matches everything. -/
theorem likeMatch_nil_percent (s : List Char) : likeMatch ['%'] s = true :=
  (likeMatch_percent [] s).mpr ⟨[], List.nil_suffix, rfl⟩

/-- Helper: literal pattern character against the empty value. -/
theorem likeMatch_cons_lit_nil (u : Char) (ps : List Char) (h1 : u ≠ '%') (h2 : u ≠ '_') :
    likeMatch (u :: ps) [] = false := by
  conv_lhs => rw [likeMatch]
  rw [if_neg h1, if_neg h2]

/-- Helper: literal pattern character against a nonempty value. -/
theorem likeMatch_cons_lit (u : Char) (ps : List Char) (h1 : u ≠ '%') (h2 : u ≠ '_')
    (c : Char) (s2 : List Char) :
    likeMatch (u :: ps) (c :: s2)
      = ((asciiLowerChar u == asciiLowerChar c) && likeMatch ps s2) := by
  conv_lhs => rw [likeMatch]
  rw [if_neg h1, if_neg h2]

/-- Helper: a wildcard-free pattern segment consumes exactly a
case-insensitively equal prefix of the value. -/
theorem likeMatch_literal :
    ∀ (U : List Char), (∀ c ∈ U, c ≠ '%' ∧ c ≠ '_') → ∀ (p2 s : List Char),
      likeMatch (U ++ p2) s = true ↔
        ∃ s1 s2, s = s1 ++ s2 ∧ asciiLowerL s1 = asciiLowerL U ∧ likeMatch p2 s2 = true := by
  intro U
  induction U with
  | nil =>
    intro _ p2 s
    constructor
    · intro h; exact ⟨[], s, rfl, rfl, h⟩
    · rintro ⟨s1, s2, rfl, h1, h2⟩
      have hlen := congrArg List.length h1
      simp only [asciiLowerL, List.length_map, List.length_nil] at hlen
      have : s1 = [] := List.eq_nil_of_length_eq_zero hlen
      subst this
      simpa using h2
  | cons u U ih =>
    intro hw p2 s
    have hu := hw u (by simp)
    have hrest : ∀ c ∈ U, c ≠ '%' ∧ c ≠ '_' := fun c hc => hw c (by simp [hc])
    cases s with
    | nil =>
      rw [List.cons_append, likeMatch_cons_lit_nil u (U ++ p2) hu.1 hu.2]
      constructor
      · intro h; exact absurd h (by simp)
      · rintro ⟨s1, s2, hnil, hlow, _⟩
        rcases List.append_eq_nil.mp hnil.symm with ⟨rfl, rfl⟩
        have hlen := congrArg List.length hlow
        simp [asciiLowerL] at hlen
    | cons c ss =>
      rw [List.cons_append, likeMatch_cons_lit u (U ++ p2) hu.1 hu.2 c ss]
      simp only [Bool.and_eq_true, beq_iff_eq]
      constructor
      · rintro ⟨hcu, hrec⟩
        rcases (ih hrest p2 ss).mp hrec with ⟨s1, s2, rfl, hlow, hp⟩
        refine ⟨c :: s1, s2, rfl, ?_, hp⟩
        simp only [asciiLowerL, List.map_cons] at hlow ⊢
        rw [hlow, hcu]
      · rintro ⟨s1, s2, hs, hlow, hp⟩
        cases s1 with
        | nil =>
          have hlen := congrArg List.length hlow
          simp [asciiLowerL] at hlen
        | cons d s1b =>
          simp only [List.cons_append, List.cons.injEq] at hs
          rcases hs with ⟨rfl, rfl⟩
          simp only [asciiLowerL, List.map_cons, List.cons.injEq] at hlow
          refine ⟨hlow.1.symm, (ih hrest p2 (s1b ++ s2)).mpr ⟨s1b, s2, rfl, hlow.2, hp⟩⟩

/-- Helper: for a wildcard-free needle `U`, the pattern `%U%` accepts
exactly the values containing `U` as an ASCII-case-insensitive
substring. -/
theorem likeMatch_ci_substring (U s : List Char) (hw : ∀ c ∈ U, c ≠ '%' ∧ c ≠ '_') :
    likeMatch ('%' :: (U ++ ['%'])) s = true ↔
      (findSub (asciiLowerL s) (asciiLowerL U)).isSome := by
  rw [likeMatch_percent, findSub_isSome_iff]
  constructor
  · rintro ⟨t, ht, hlm⟩
    rcases (likeMatch_literal U hw ['%'] t).mp hlm with ⟨s1, s2, rfl, hlow, _⟩
    rcases ht with ⟨pre, rfl⟩
    refine ⟨asciiLowerL pre, asciiLowerL s2, ?_⟩
    simp only [asciiLowerL, List.map_append, ← List.append_assoc]
    rw [show List.map asciiLowerChar s1 = List.map asciiLowerChar U from hlow]
  · rintro ⟨pre, suf, hsplit⟩
    refine ⟨s.drop pre.length, List.drop_suffix _ _, ?_⟩
    rw [likeMatch_literal U hw ['%'] _]
    refine ⟨(s.drop pre.length).take U.length, (s.drop pre.length).drop U.length,
      (List.take_append_drop _ _).symm, ?_, likeMatch_nil_percent _⟩
    have hmap : asciiLowerL ((s.drop pre.length).take U.length)
        = ((asciiLowerL s).drop pre.length).take U.length := by
      simp [asciiLowerL, List.map_take, List.map_drop]
    rw [hmap, hsplit]
    have hUlen : U.length = (asciiLowerL U).length := by simp [asciiLowerL]
    rw [List.append_assoc, List.drop_left, hUlen, List.take_left]

/-- Helper: boolean equality from an equivalence of truth. -/
theorem bool_eq_of_iff {a b : Bool} (h : (a = true) ↔ (b = true)) : a = b := by
  cases a <;> cases b <;> simp_all

/-- Claim C7 (counterexample).  SQLite's `LIKE` is case-insensitive on
ASCII, so `query(filter_url = "B.COM")` returns `rec2`, whose url
`https://b.com/y` contains `B.COM` only in a different letter case (the
claimed case-sensitive filter would have excluded it). -/
theorem url_filter_case_cex :
    bigStore.queryRows 10 0 none none none (some "B.COM") = [recordToRow rec2]
      ∧ findSub "https://b.com/y".data "B.COM".data = none := by
  decide

/-- Claim C7 (amended).  For every filter string `U` that is nonempty and
free of the `LIKE` wildcards `%` and `_`, `query(filter_url = U)` returns
exactly the records (among those passing the other filters and within the
limit window) whose url contains `U` as an ASCII-case-INsensitive
substring; a record whose url contains `U` only in a different letter
case IS returned.  The second conjunct ties the containment test to an
explicit substring decomposition. -/
theorem url_filter_ci (s : SQLiteTrafficStore) (limit offset : Int)
    (fd ft fs : Option String) (U : String)
    (hne : U ≠ "") (hw : ∀ c ∈ U.data, c ≠ '%' ∧ c ≠ '_') :
    (s.queryRows limit offset fd ft fs (some U)
      = sqlWindow (min limit 10) offset (sortDesc (s.rows.filter fun r =>
          rowMatches fd ft fs none r
            && (findSub (asciiLowerL r.url.data) (asciiLowerL U.data)).isSome)))
  ∧ (∀ hay needle : List Char,
      (findSub hay needle).isSome = true ↔ ∃ pre suf, hay = pre ++ needle ++ suf) := by
  constructor
  · unfold SQLiteTrafficStore.queryRows
    congr 2
    apply List.filter_congr
    intro r _
    unfold rowMatches
    simp only [activeStr, if_neg hne]
    have hdata : ("%" ++ U ++ "%").data = '%' :: (U.data ++ ['%']) := by
      have h1 : ∀ a b : String, (a ++ b).data = a.data ++ b.data := fun a b => by
        cases a; cases b; rfl
      rw [h1, h1]
      rfl
    have hlike : sqlLike r.url ("%" ++ U ++ "%")
        = (findSub (asciiLowerL r.url.data) (asciiLowerL U.data)).isSome := by
      unfold sqlLike
      rw [hdata]
      exact bool_eq_of_iff (likeMatch_ci_substring U.data r.url.data hw)
    rw [hlike]
    cases ((match fd with
        | none => none
        | some s => if s = "" then none else some s : Option String)) <;>
      cases ((match ft with
        | none => none
        | some s => if s = "" then none else some s : Option String)) <;>
      simp [Bool.and_true]
  · intro hay needle
    exact findSub_isSome_iff hay needle

/-- Witness for `url_filter_ci`: the filter `b.com` on `bigStore`. -/
theorem url_filter_ci_witness :
    bigStore.queryRows 10 0 none none none (some "b.com")
      = sqlWindow (min 10 10) 0 (sortDesc (bigStore.rows.filter fun r =>
          rowMatches none none none none r
            && (findSub (asciiLowerL r.url.data) (asciiLowerL "b.com".data)).isSome)) :=
  (url_filter_ci bigStore 10 0 none none none "b.com" (by decide) (by decide)).1

/-- Helper: after `_cleanup` the table never holds more than `max_size`
rows; the cleanup subquery's victims are at least `count - max_size` rows
of the table, and all of them are deleted. -/
theorem cleanup_length_le (m : Nat) (rows : List TrafficRow) :
    (cleanup m rows).length ≤ m := by
  unfold cleanup
  split
  case isTrue h =>
    have hperm : List.Perm (sortAsc rows) rows := List.perm_insertionSort _ _
    have hlen_sorted : (sortAsc rows).length = rows.length := hperm.length_eq
    set dc := rows.length - m with hdc
    set victims := ((sortAsc rows).take dc).map (·.id) with hv
    have htake : ((sortAsc rows).take dc).countP (fun r => victims.contains r.id)
        = ((sortAsc rows).take dc).length := by
      apply List.countP_eq_length.mpr
      intro a ha
      exact List.elem_eq_true_of_mem (List.mem_map_of_mem (·.id) ha)
    have hsub : ((sortAsc rows).take dc).countP (fun r => victims.contains r.id)
        ≤ (sortAsc rows).countP (fun r => victims.contains r.id) :=
      List.Sublist.countP_le _ (List.take_sublist _ _)
    have hperm_count : (sortAsc rows).countP (fun r => victims.contains r.id)
        = rows.countP (fun r => victims.contains r.id) :=
      hperm.countP_congr (fun x _ => rfl)
    have htlen : ((sortAsc rows).take dc).length = dc := by
      rw [List.length_take, hlen_sorted]
      omega
    have hsplit := List.length_eq_countP_add_countP
      (fun r : TrafficRow => victims.contains r.id) rows
    have hfilter : (rows.filter fun r => ¬ victims.contains r.id).length
        = rows.countP (fun r => ¬ victims.contains r.id) :=
      (List.countP_eq_length_filter _ _).symm
    rw [hfilter]
    omega
  case isFalse h =>
    omega

/-- Helper: on a timestamp-sorted table with distinct ids, `_cleanup`
deletes exactly the leading (oldest) overflow rows. -/
theorem cleanup_sorted_nodup (m : Nat) (rows : List TrafficRow)
    (hs : rows.Pairwise tsLe) (hn : (rows.map (·.id)).Nodup) :
    cleanup m rows = rows.drop (rows.length - m) := by
  unfold cleanup
  split
  case isFalse h =>
    rw [Nat.sub_eq_zero_of_le (not_lt.mp h), List.drop_zero]
  case isTrue h =>
    have hsort : sortAsc rows = rows := List.Sorted.insertionSort_eq hs
    rw [hsort]
    have hrnodup : rows.Nodup := hn.of_map
    set dc := rows.length - m with hdc
    set victims := ((rows.take dc).map (·.id)) with hvic
    have h1 : ((rows.take dc).filter fun r => ¬ victims.contains r.id) = [] := by
      apply List.filter_eq_nil_iff.mpr
      intro a ha
      simp only [decide_not, Bool.not_eq_true, Bool.not_eq_false, decide_eq_true_eq]
      exact List.elem_eq_true_of_mem (List.mem_map_of_mem (·.id) ha)
    have h2 : ((rows.drop dc).filter fun r => ¬ victims.contains r.id) = rows.drop dc := by
      apply List.filter_eq_self.mpr
      intro a ha
      simp only [decide_not, Bool.not_eq_true', decide_eq_false_iff_not]
      intro hcon
      rcases List.mem_map.mp (List.mem_of_elem_eq_true hcon) with ⟨v, hv, hvid⟩
      have hvrows : v ∈ rows := List.mem_of_mem_take hv
      have harows : a ∈ rows := List.mem_of_mem_drop ha
      have hva : v = a := List.inj_on_of_nodup_map hn hvrows harows hvid
      subst hva
      exact List.disjoint_take_drop hrnodup (le_refl dc) hv ha
    calc List.filter (fun r => ¬ victims.contains r.id) rows
        = List.filter (fun r => ¬ victims.contains r.id) (rows.take dc ++ rows.drop dc) := by
          rw [List.take_append_drop]
      _ = rows.drop dc := by rw [List.filter_append, h1, h2, List.nil_append]

/-- Helper: on a table with distinct ids, any row deleted by `_cleanup`
leaves exactly `max_size` rows behind and is no newer than every surviving
row. -/
theorem cleanup_deleted_oldest (m : Nat) (rows : List TrafficRow)
    (hn : (rows.map (·.id)).Nodup)
    (d : TrafficRow) (hd : d ∈ rows) (hnd : d ∉ cleanup m rows) :
    (cleanup m rows).length = m ∧ ∀ k ∈ cleanup m rows, d.timestamp ≤ k.timestamp := by
  by_cases h : m < rows.length
  case neg =>
    unfold cleanup at hnd
    rw [if_neg h] at hnd
    exact absurd hd hnd
  case pos =>
    have hperm : List.Perm (sortAsc rows) rows := List.perm_insertionSort _ _
    have hlenL : (sortAsc rows).length = rows.length := hperm.length_eq
    have hLids : ((sortAsc rows).map (·.id)).Nodup :=
      (List.Perm.nodup_iff (hperm.map (·.id))).mpr hn
    have hLnodup : (sortAsc rows).Nodup := hLids.of_map
    have hLsorted : (sortAsc rows).Pairwise tsLe := List.sorted_insertionSort tsLe rows
    set dc := rows.length - m with hdc
    set victims := (((sortAsc rows).take dc).map (·.id)) with hvic
    have hcleanup : cleanup m rows = rows.filter fun r => ¬ victims.contains r.id := by
      unfold cleanup
      rw [if_pos h]
    rw [hcleanup] at hnd ⊢
    have hdropzero : ((sortAsc rows).drop dc).countP (fun r => victims.contains r.id) = 0 := by
      apply List.countP_eq_zero.mpr
      intro a ha
      intro hcon
      rcases List.mem_map.mp (List.mem_of_elem_eq_true hcon) with ⟨v, hv, hvid⟩
      have hva : v = a := List.inj_on_of_nodup_map hLids
        (List.mem_of_mem_take hv) (List.mem_of_mem_drop ha) hvid
      subst hva
      exact List.disjoint_take_drop hLnodup (le_refl dc) hv ha
    have htake : ((sortAsc rows).take dc).countP (fun r => victims.contains r.id)
        = ((sortAsc rows).take dc).length := by
      apply List.countP_eq_length.mpr
      intro a ha
      exact List.elem_eq_true_of_mem (List.mem_map_of_mem (·.id) ha)
    have htlen : ((sortAsc rows).take dc).length = dc := by
      rw [List.length_take, hlenL]
      omega
    have hcount : rows.countP (fun r => victims.contains r.id) = dc := by
      rw [← hperm.countP_congr (fun x _ => rfl)]
      conv_lhs => rw [← List.take_append_drop dc (sortAsc rows)]
      rw [List.countP_append, hdropzero, htake, htlen]
      omega
    have hdmem : d ∈ (sortAsc rows).take dc := by
      have hpred : ¬ (decide ¬ (victims.contains d.id = true)) = true := by
        intro hp
        exact hnd (List.mem_filter.mpr ⟨hd, hp⟩)
      have hcon : victims.contains d.id = true := by
        by_contra hc
        simp [hc] at hpred
        exact hc (List.elem_eq_true_of_mem hpred)
      rcases List.mem_map.mp (List.mem_of_elem_eq_true hcon) with ⟨v, hv, hvid⟩
      have hva : v = d := List.inj_on_of_nodup_map hLids
        (List.mem_of_mem_take hv) ((hperm.mem_iff).mpr hd) hvid
      exact hva ▸ hv
    constructor
    · have hsplit := List.length_eq_countP_add_countP
        (fun r : TrafficRow => victims.contains r.id) rows
      have hfilter : (rows.filter fun r => ¬ victims.contains r.id).length
          = rows.countP (fun r => ¬ victims.contains r.id) :=
        (List.countP_eq_length_filter _ _).symm
      rw [hfilter]
      omega
    · intro k hk
      rcases List.mem_filter.mp hk with ⟨hkrows, hkpred⟩
      have hknot : k ∉ (sortAsc rows).take dc := by
        intro hkt
        have := List.elem_eq_true_of_mem (List.mem_map_of_mem (·.id) hkt)
        simp only [decide_not] at hkpred
        rw [show (((sortAsc rows).take dc).map (·.id)) = victims from rfl] at this
        simp [this] at hkpred
        exact hkpred (List.mem_of_elem_eq_true this)
      have hkL : k ∈ (sortAsc rows) := (hperm.mem_iff).mpr hkrows
      have hkdrop : k ∈ (sortAsc rows).drop dc := by
        rcases List.mem_append.mp ((List.take_append_drop dc (sortAsc rows)) ▸ hkL) with h1 | h2
        · exact absurd h1 hknot
        · exact h2
      have hpw := List.pairwise_append.mp
        ((List.take_append_drop dc (sortAsc rows)).symm ▸ hLsorted)
      exact hpw.2.2 d hdmem k hkdrop

/-- Helper: adding a fresh, newest record to a sorted within-capacity
store appends its row and drops the overflow prefix. -/
theorem add_append_window (s : SQLiteTrafficStore) (r : TrafficRecord)
    (hid : ∀ row ∈ s.rows, row.id ≠ r.id)
    (hs : s.rows.Pairwise tsLe)
    (hts : ∀ row ∈ s.rows, row.timestamp ≤ r.timestamp)
    (hn : ((s.rows ++ [recordToRow r]).map (·.id)).Nodup) :
    (s.add r).rows = (s.rows ++ [recordToRow r]).drop ((s.rows.length + 1) - s.max_size) := by
  unfold SQLiteTrafficStore.add
  have hfilter : (s.rows.filter fun row => row.id ≠ r.id) = s.rows := by
    apply List.filter_eq_self.mpr
    intro a ha
    simpa using hid a ha
  rw [hfilter]
  have hsorted : (s.rows ++ [recordToRow r]).Pairwise tsLe := by
    rw [List.pairwise_append]
    refine ⟨hs, List.pairwise_singleton _ _, ?_⟩
    intro a ha b hb
    simp only [List.mem_singleton] at hb
    subst hb
    exact hts a ha
  rw [cleanup_sorted_nodup s.max_size _ hsorted hn]
  simp

/-- Helper: folding `add` over fresh records with strictly increasing
timestamps keeps exactly the trailing capacity window of rows. -/
theorem foldl_add_window :
    ∀ (pend : List TrafficRecord) (s : SQLiteTrafficStore),
      ((s.rows.map (·.id)) ++ pend.map (·.id)).Nodup →
      ((s.rows.map (·.timestamp)) ++ pend.map (·.timestamp)).Pairwise (· < ·) →
      s.rows.length ≤ s.max_size →
      (pend.foldl SQLiteTrafficStore.add s).rows
        = (s.rows ++ pend.map recordToRow).drop
            ((s.rows.length + pend.length) - s.max_size) := by
  intro pend
  induction pend with
  | nil =>
    intro s _ _ hlen
    simp only [List.foldl_nil, List.map_nil, List.append_nil, List.length_nil,
      Nat.add_zero]
    rw [Nat.sub_eq_zero_of_le hlen, List.drop_zero]
  | cons r pend ih =>
    intro s hn hp hlen
    simp only [List.foldl_cons, List.map_cons, List.length_cons]
    rw [List.map_cons] at hn hp
    have hnsplit := List.nodup_append.mp hn
    have hpsplit := List.pairwise_append.mp hp
    have hid : ∀ row ∈ s.rows, row.id ≠ r.id := by
      intro row hrow he
      exact hnsplit.2.2 (List.mem_map_of_mem (fun x => x.id) hrow) (by simp [he])
    have hsrt : s.rows.Pairwise tsLe := by
      have h1 := List.pairwise_map.mp hpsplit.1
      exact h1.imp le_of_lt
    have hts : ∀ row ∈ s.rows, row.timestamp ≤ r.timestamp := by
      intro row hrow
      exact le_of_lt (hpsplit.2.2 _ (List.mem_map_of_mem (fun x => x.timestamp) hrow)
        _ (by simp))
    have hnpre : ((s.rows ++ [recordToRow r]).map (·.id)).Nodup := by
      rw [List.map_append]
      have hsub : List.Sublist ((s.rows.map (·.id)) ++ [(recordToRow r).id])
          ((s.rows.map (·.id)) ++ (r.id :: pend.map (·.id))) := by
        apply List.Sublist.append_left
        exact List.cons_sublist_cons.mpr (List.nil_sublist _)
      exact List.Nodup.sublist hsub hn
    have hstep := add_append_window s r hid hsrt hts hnpre
    set j := (s.rows.length + 1) - s.max_size with hj
    have hjle : j ≤ (s.rows ++ [recordToRow r]).length := by
      simp only [List.length_append, List.length_cons, List.length_nil]
      omega
    have hlen2 : (s.add r).rows.length = (s.rows.length + 1) - j := by
      rw [hstep, List.length_drop]
      simp only [List.length_append, List.length_cons, List.length_nil]
    have hids2 : (s.add r).rows.map (·.id)
        = ((s.rows.map (·.id)) ++ [r.id]).drop j := by
      rw [hstep, List.map_drop, List.map_append]
      rfl
    have hts2 : (s.add r).rows.map (·.timestamp)
        = ((s.rows.map (·.timestamp)) ++ [r.timestamp]).drop j := by
      rw [hstep, List.map_drop, List.map_append]
      rfl
    have hsubid : List.Sublist ((((s.rows.map (·.id)) ++ [r.id]).drop j)
          ++ pend.map (·.id))
        (((s.rows.map (·.id)) ++ [r.id]) ++ pend.map (·.id)) :=
      List.Sublist.append_right (List.drop_sublist _ _) _
    have hassoc : (((s.rows.map (·.id)) ++ [r.id]) ++ pend.map (·.id))
        = ((s.rows.map (·.id)) ++ (r.id :: pend.map (·.id))) := by
      rw [List.append_assoc]
      rfl
    have hn2 : (((s.add r).rows.map (·.id)) ++ pend.map (·.id)).Nodup := by
      rw [hids2]
      exact List.Nodup.sublist (hassoc ▸ hsubid) hn
    have hsubts : List.Sublist ((((s.rows.map (·.timestamp)) ++ [r.timestamp]).drop j)
          ++ pend.map (·.timestamp))
        (((s.rows.map (·.timestamp)) ++ [r.timestamp]) ++ pend.map (·.timestamp)) :=
      List.Sublist.append_right (List.drop_sublist _ _) _
    have hassocts : (((s.rows.map (·.timestamp)) ++ [r.timestamp]) ++ pend.map (·.timestamp))
        = ((s.rows.map (·.timestamp)) ++ (r.timestamp :: pend.map (·.timestamp))) := by
      rw [List.append_assoc]
      rfl
    have hp2 : (((s.add r).rows.map (·.timestamp)) ++ pend.map (·.timestamp)).Pairwise
        (· < ·) := by
      rw [hts2]
      exact List.Pairwise.sublist (hassocts ▸ hsubts) hp
    have hlen2le : (s.add r).rows.length ≤ (s.add r).max_size := by
      rw [hlen2]
      show s.rows.length + 1 - j ≤ s.max_size
      omega
    have hih := ih (s.add r) hn2 hp2 hlen2le
    rw [hih, hstep]
    have hdropapp : ((s.rows ++ [recordToRow r]).drop j) ++ pend.map recordToRow
        = ((s.rows ++ [recordToRow r]) ++ pend.map recordToRow).drop j :=
      (List.drop_append_of_le_length hjle).symm
    rw [hdropapp, List.drop_drop]
    have happ : ((s.rows ++ [recordToRow r]) ++ pend.map recordToRow)
        = (s.rows ++ (recordToRow r :: pend.map recordToRow)) := by
      rw [List.append_assoc]
      rfl
    rw [happ]
    congr 1
    rw [List.length_drop]
    simp only [List.length_append, List.length_cons, List.length_nil,
      show (s.add r).max_size = s.max_size from rfl]
    omega

/-- Claim C1.  Capacity eviction: after every `add` the record count does
not exceed `max_size`; when an insertion pushes the count over the bound,
the deleted records are the oldest by timestamp and the count comes back
to exactly `max_size` (stated for stores with distinct ids); and
inserting `maxSize + k` records with distinct ids and strictly increasing
timestamps into a fresh store of capacity `maxSize` leaves exactly the
`maxSize` most-recent records present. -/
theorem capacity_eviction :
    (∀ (s : SQLiteTrafficStore) (r : TrafficRecord), (s.add r).count ≤ s.max_size)
  ∧ (∀ (s : SQLiteTrafficStore) (r : TrafficRecord),
      (s.rows.map (·.id)).Nodup →
      ∀ d ∈ (s.rows.filter fun row => row.id ≠ r.id) ++ [recordToRow r],
        d ∉ (s.add r).rows →
        ((s.add r).count = s.max_size ∧ ∀ k ∈ (s.add r).rows, d.timestamp ≤ k.timestamp))
  ∧ (∀ (m : Nat) (recs : List TrafficRecord),
      (recs.map (·.id)).Nodup →
      (recs.map (·.timestamp)).Pairwise (· < ·) →
      (recs.foldl SQLiteTrafficStore.add { max_size := m, rows := [] }).rows
        = (recs.drop (recs.length - m)).map recordToRow) := by
  refine ⟨?_, ?_, ?_⟩
  · intro s r
    exact cleanup_length_le s.max_size _
  · intro s r hnodup d hd hnd
    have hfsub : List.Sublist ((s.rows.filter fun row => row.id ≠ r.id).map (·.id))
        (s.rows.map (·.id)) :=
      List.Sublist.map _ (List.filter_sublist _)
    have hnpre : (((s.rows.filter fun row => row.id ≠ r.id)
        ++ [recordToRow r]).map (·.id)).Nodup := by
      rw [List.map_append]
      apply List.Nodup.append
      · exact hnodup.sublist hfsub
      · exact List.nodup_singleton _
      · intro x hx hx2
        simp only [List.map_cons, List.map_nil, List.mem_singleton] at hx2
        subst hx2
        rcases List.mem_map.mp hx with ⟨row, hrow, hrid⟩
        have := (List.mem_filter.mp hrow).2
        simp only [ne_eq, decide_not, Bool.not_eq_true', decide_eq_false_iff_not] at this
        exact this hrid
    exact cleanup_deleted_oldest s.max_size
      ((s.rows.filter fun row => row.id ≠ r.id) ++ [recordToRow r]) hnpre d hd hnd
  · intro m recs hn hp
    have h := foldl_add_window recs { max_size := m, rows := [] }
      (by simpa using hn) (by simpa using hp) (by simp)
    simp only [List.nil_append, List.length_nil, Nat.zero_add] at h
    rw [h, List.map_drop]

/-- Witness for `capacity_eviction`: a capacity-2 store that evicts
`rec1` when `rec3` arrives, and the three-record scenario keeping the two
most recent. -/
theorem capacity_eviction_witness :
    ((({ max_size := 2, rows := [recordToRow rec1, recordToRow rec2] } :
        SQLiteTrafficStore).add rec3).count = 2
      ∧ ∀ k ∈ (({ max_size := 2, rows := [recordToRow rec1, recordToRow rec2] } :
          SQLiteTrafficStore).add rec3).rows, (recordToRow rec1).timestamp ≤ k.timestamp)
  ∧ (([rec1, rec2, rec3].foldl SQLiteTrafficStore.add
        { max_size := 2, rows := [] }).rows = [recordToRow rec2, recordToRow rec3]) := by
  constructor
  · exact capacity_eviction.2.1 _ rec3 (by decide) (recordToRow rec1) (by decide) (by decide)
  · have h := capacity_eviction.2.2 2 [rec1, rec2, rec3] (by decide) (by decide)
    simpa using h
